import Mathlib

/-!
Dialog service of social-network-replication: a shallow embedding.

The definitions below follow `src/dialog-service/main.go` (namespace
`DialogService`) and the dialog relay of `src/monolith/main.go` (namespace
`Monolith`).

Modelling conventions.

* A Go `string` is a finite sequence of bytes, `GoString`; the builtin `<` on
  strings is the bytewise lexicographic order `strLt`, and `+` is `++`.
* `time.Now()` is an input of the handler that calls it (`Time` is a number).
  `sendMessage` reads it before it takes the lock; where that matters the
  handler is split at the lock (`sendMessagePrepare`, `sendMessageCommit`) and
  the parts of different requests interleave (`step`, `runEvents`).
* A Go slice `[]*DialogMessage` is a `Slice`: either `nil` or a sequence of
  messages. Messages are never mutated after creation, so the pointer to a
  message is modelled by the message itself.
* The Go map `map[string][]*DialogMessage` is a list of bindings without
  repeated keys (`GoMap`); the order of the bindings has no meaning for Go and
  no definition below depends on it beyond being some enumeration.
* The mutex makes every handler's access to the map atomic, so for the map a
  handler is a function from the storage before to the response and the
  storage after, and concurrent requests are taken in the order in which they
  get the lock.
-/

/-- One byte of a Go string. -/
abbrev Byte := Fin 256

/-- Go `string`: a sequence of bytes. -/
abbrev GoString := List Byte

/-- The bytes (UTF-8) of a string literal of the source. -/
def str (s : String) : GoString := s.toUTF8.data.toList.map UInt8.val

/-- Go builtin `a < b` on strings: lexicographic comparison of the bytes. -/
def strLt : GoString → GoString → Bool
  | [], [] => false
  | [], _ :: _ => true
  | _ :: _, [] => false
  | x :: xs, y :: ys => if x < y then true else if y < x then false else strLt xs ys

/-- Timestamps, as the number of clock ticks since some epoch. -/
abbrev Time := Nat

namespace DialogService

/-- Go `type DialogMessage struct` (main.go 14-19). -/
structure DialogMessage where
  From : GoString
  To : GoString
  Text : GoString
  Timestamp : Time
  deriving DecidableEq, Repr

/-- Go `createDialogKey` (main.go 36-41). -/
def createDialogKey (userId1 userId2 : GoString) : GoString :=
  if strLt userId1 userId2 then
    userId1 ++ str "_" ++ userId2
  else
    userId2 ++ str "_" ++ userId1

/-- The unordered pair of `a` and `b` is the unordered pair of `c` and `d`. -/
def samePair (a b c d : GoString) : Prop :=
  (a = c ∧ b = d) ∨ (a = d ∧ b = c)

instance (a b c d : GoString) : Decidable (samePair a b c d) := by
  unfold samePair; infer_instance

/-- The identity does not contain the separator byte of the key, `_`. -/
def noSep (u : GoString) : Prop := (95 : Byte) ∉ u

instance (u : GoString) : Decidable (noSep u) := by
  unfold noSep; infer_instance

/-- The identity `createDialogKey` places before the separator. -/
def keyFirst (userId1 userId2 : GoString) : GoString :=
  if strLt userId1 userId2 then userId1 else userId2

/-- The identity `createDialogKey` places after the separator. -/
def keySecond (userId1 userId2 : GoString) : GoString :=
  if strLt userId1 userId2 then userId2 else userId1

/-! ### Slices and the map of dialogs -/

/-- Go slice `[]*DialogMessage`: the nil slice, or a slice with its elements
(possibly none). JSON writes the first as `null` and the second as an array. -/
inductive Slice where
  | nil
  | elems (ms : List DialogMessage)
  deriving DecidableEq, Repr

/-- The elements of a slice, in order; the nil slice has none. -/
def Slice.toList : Slice → List DialogMessage
  | .nil => []
  | .elems ms => ms

/-- Go `len(s)`. -/
def Slice.len (s : Slice) : Nat := s.toList.length

/-- Go `append(s, m)`: the elements of `s` followed by `m`, never nil. -/
def Slice.append (s : Slice) (m : DialogMessage) : Slice :=
  .elems (s.toList ++ [m])

/-- Go `m[k] = v` on the bindings: replace the binding of `k`, or add one. -/
def setEntries (k : GoString) (v : Slice) :
    List (GoString × Slice) → List (GoString × Slice)
  | [] => [(k, v)]
  | (k2, v2) :: rest =>
    if k2 = k then (k, v) :: rest else (k2, v2) :: setEntries k v rest

/-- The binding of `k`, if there is one. -/
def lookupEntries (k : GoString) : List (GoString × Slice) → Option Slice
  | [] => none
  | (k2, v2) :: rest => if k2 = k then some v2 else lookupEntries k rest

/-- Go `map[string][]*DialogMessage`: bindings with no key repeated. -/
structure GoMap where
  entries : List (GoString × Slice)
  nodup : (entries.map Prod.fst).Nodup
  deriving DecidableEq

/-- Go `make(map[string][]*DialogMessage)`. -/
def GoMap.empty : GoMap := ⟨[], List.nodup_nil⟩

/-- The binding of `k` in the map, if there is one. -/
def GoMap.get? (m : GoMap) (k : GoString) : Option Slice :=
  lookupEntries k m.entries

/-- Go `m[k]` as an expression: the zero value, the nil slice, for a key
that is not in the map. -/
def GoMap.index (m : GoMap) (k : GoString) : Slice :=
  match m.get? k with
  | some v => v
  | none => .nil

/-- Go `len(m)`. -/
def GoMap.len (m : GoMap) : Nat := m.entries.length

/-- Go `m[k] = v`. -/
def GoMap.set (m : GoMap) (k : GoString) (v : Slice) : GoMap :=
  ⟨setEntries k v m.entries, by
    have keys : ∀ l : List (GoString × Slice), ∀ x,
        x ∈ (setEntries k v l).map Prod.fst → x = k ∨ x ∈ l.map Prod.fst := by
      intro l
      induction l with
      | nil => intro x hx; simpa [setEntries] using hx
      | cons e rest ih =>
        intro x hx
        obtain ⟨k2, v2⟩ := e
        by_cases hk : k2 = k
        · subst hk
          simp only [setEntries, if_true, List.map_cons, List.mem_cons] at hx ⊢
          rcases hx with hx | hx
          · exact Or.inl hx
          · exact Or.inr (Or.inr hx)
        · simp only [setEntries, hk, if_false, List.map_cons, List.mem_cons] at hx ⊢
          rcases hx with hx | hx
          · exact Or.inr (Or.inl hx)
          · rcases ih x hx with h | h
            · exact Or.inl h
            · exact Or.inr (Or.inr h)
    have main : ∀ l : List (GoString × Slice), (l.map Prod.fst).Nodup →
        ((setEntries k v l).map Prod.fst).Nodup := by
      intro l
      induction l with
      | nil => intro _; simp [setEntries]
      | cons e rest ih =>
        intro h
        obtain ⟨k2, v2⟩ := e
        simp only [List.map_cons, List.nodup_cons] at h
        by_cases hk : k2 = k
        · subst hk
          simpa [setEntries] using h
        · simp only [setEntries, hk, if_false, List.map_cons, List.nodup_cons]
          refine ⟨fun hmem => ?_, ih h.2⟩
          rcases keys rest k2 hmem with h2 | h2
          · exact hk h2
          · exact h.1 h2
    exact main _ m.nodup⟩

/-- Go `type DialogStorage struct` (main.go 26-29). The mutex is the reason why
handlers are atomic steps; it holds no data. -/
structure DialogStorage where
  dialogs : GoMap
  deriving DecidableEq

/-- Go `var storage` (main.go 31-33): the storage at process start. -/
def emptyStorage : DialogStorage := ⟨GoMap.empty⟩

/-- The messages stored under a key, in order (none for an absent key). -/
def DialogStorage.messages (storage : DialogStorage) (key : GoString) : List DialogMessage :=
  (storage.dialogs.index key).toList

/-! ### Requests and responses -/

/-- Go `type MessageSendRequest struct` (main.go 21-23). -/
structure MessageSendRequest where
  Text : GoString
  deriving DecidableEq, Repr

/-- The body of a request as the JSON decoder sees it: not decodable into a
`MessageSendRequest` (not JSON, or `text` of another type), or an object whose
`text` member is absent or has a string value. -/
inductive ReqBody where
  | malformed
  | object (text : Option GoString)
  deriving DecidableEq, Repr

/-- Go `c.ShouldBindJSON(&req)` for `MessageSendRequest`: decoding leaves `Text`
at its zero value when the member is absent, and `binding:"required"` then
rejects a `Text` that is the zero value. `none` is the error. -/
def shouldBindJSON : ReqBody → Option MessageSendRequest
  | .malformed => none
  | .object text =>
    let req : MessageSendRequest := ⟨text.getD []⟩
    if req.Text = [] then none else some req

/-- The part of `*gin.Context` the handlers read: the `X-User-ID` header as
`c.GetHeader` returns it (empty when absent), the path parameter `user_id`, the
body, and the value stored under the key `userId` as `c.GetString` returns it
(empty when never set). -/
structure Context where
  header : GoString
  param : GoString
  body : ReqBody
  userId : GoString
  deriving DecidableEq, Repr

/-- JSON bodies the handlers write. -/
inductive RespBody where
  | message (text : String)
  | messages (ms : Slice)
  | dialogs (ds : GoMap)
  | health (status service : String) (total_dialogs total_messages : Nat)
  deriving DecidableEq

/-- Status and body written with `c.JSON`. -/
structure Response where
  status : Nat
  body : RespBody
  deriving DecidableEq

def StatusOK : Nat := 200
def StatusBadRequest : Nat := 400
def StatusUnauthorized : Nat := 401

/-- A handler: from the context, the clock and the storage before, to the
response and the storage after. -/
abbrev Handler := Context → Time → DialogStorage → Response × DialogStorage

/-! ### Handlers -/

/-- Go `userContextMiddleware` (main.go 44-56); `c.Next()` runs `next`, and after
`c.Abort()` nothing else runs. -/
def userContextMiddleware (next : Handler) : Handler := fun c now storage =>
  let userId := c.header
  if userId = [] then
    (⟨StatusUnauthorized, .message "User ID header required"⟩, storage)
  else
    next { c with userId := userId } now storage

/-- Go `sendMessage` (main.go 59-89); `now` is the value of `time.Now()`. -/
def sendMessage : Handler := fun c now storage =>
  let currentUserId := c.userId
  let toUserId := c.param
  match shouldBindJSON c.body with
  | none => (⟨StatusBadRequest, .message "Invalid request data"⟩, storage)
  | some req =>
    if currentUserId = toUserId then
      (⟨StatusBadRequest, .message "Cannot send message to yourself"⟩, storage)
    else
      let message : DialogMessage :=
        { From := currentUserId, To := toUserId, Text := req.Text, Timestamp := now }
      let dialogKey := createDialogKey currentUserId toUserId
      let storage2 : DialogStorage :=
        ⟨storage.dialogs.set dialogKey ((storage.dialogs.index dialogKey).append message)⟩
      (⟨StatusOK, .message "Message sent successfully"⟩, storage2)

/-- Go `getDialog` (main.go 91-107). -/
def getDialog : Handler := fun c _now storage =>
  let currentUserId := c.userId
  let otherUserId := c.param
  let dialogKey := createDialogKey currentUserId otherUserId
  let messages := storage.dialogs.index dialogKey
  let messages := if messages = .nil then Slice.elems [] else messages
  (⟨StatusOK, .messages messages⟩, storage)

/-- Go `healthCheck` (main.go 110-127). -/
def healthCheck : Handler := fun _c _now storage =>
  let totalDialogs := storage.dialogs.len
  let totalMessages :=
    storage.dialogs.entries.foldl (fun total entry => total + entry.2.len) 0
  (⟨StatusOK, .health "ok" "dialog-service" totalDialogs totalMessages⟩, storage)

/-- The body of the loop of `getUserDialogs` (main.go 136-144), run on one
binding `entry` of the map with `userDialogs` as built so far. -/
def userDialogsStep (currentUserId : GoString) (userDialogs : GoMap)
    (entry : GoString × Slice) : GoMap :=
  match entry.2.toList with
  | firstMessage :: _ =>
    if firstMessage.From = currentUserId ∨ firstMessage.To = currentUserId then
      userDialogs.set entry.1 entry.2
    else userDialogs
  | [] => userDialogs

/-- Go `getUserDialogs` (main.go 130-148): the loop over the map is a fold over
its bindings. -/
def getUserDialogs : Handler := fun c _now storage =>
  let currentUserId := c.userId
  let userDialogs :=
    storage.dialogs.entries.foldl (userDialogsStep currentUserId) GoMap.empty
  (⟨StatusOK, .dialogs userDialogs⟩, storage)

/-! ### Routes -/

/-- The four routes `setupRoutes` registers (main.go 169-179):
`GET /health`, `POST /dialog/:user_id/send`, `GET /dialog/:user_id/list`,
`GET /dialogs`. -/
inductive Route where
  | health
  | send
  | list
  | dialogs
  deriving DecidableEq, Repr

/-- Go `setupRoutes` (main.go 150-183): the handler chain of each route. The CORS
function only adds response headers to a request that is not `OPTIONS`, and no
route is registered for `OPTIONS`, so it is the identity on these chains. -/
def setupRoutes : Route → Handler
  | .health => healthCheck
  | .send => userContextMiddleware sendMessage
  | .list => userContextMiddleware getDialog
  | .dialogs => userContextMiddleware getUserDialogs

/-- A request that matches a route: the route, the `X-User-ID` header (empty
when absent), the `user_id` segment of the path, the body, and the time at
which the handler reads the clock. -/
structure Request where
  route : Route
  header : GoString
  param : GoString
  body : ReqBody
  now : Time
  deriving DecidableEq, Repr

/-- The context gin hands to the chain: nothing stored under `userId` yet. -/
def newContext (r : Request) : Context :=
  { header := r.header, param := r.param, body := r.body, userId := [] }

/-- One request served by the engine. -/
def serve (r : Request) (storage : DialogStorage) : Response × DialogStorage :=
  setupRoutes r.route (newContext r) r.now storage

/-- The storage after a sequence of requests, served one after the other in
the order in which they take the lock. -/
def run : List Request → DialogStorage → DialogStorage
  | [], storage => storage
  | r :: rest, storage => run rest (serve r storage).2

/-- A storage the service can be in: the one some sequence of requests leaves
when served from process start. -/
def Reachable (storage : DialogStorage) : Prop :=
  ∃ reqs : List Request, run reqs emptyStorage = storage

/-! ### Vocabulary of the claims -/

/-- The text a body carries: empty when the body is malformed or has no
`text` member. -/
def ReqBody.text : ReqBody → GoString
  | .malformed => []
  | .object text => text.getD []

/-- The message a send request asks to store: sender from the header,
recipient from the path, text from the body, timestamp the time of receipt. -/
def sentMessage (r : Request) : DialogMessage :=
  { From := r.header, To := r.param, Text := r.body.text, Timestamp := r.now }

/-- The messages that the accepted sends among `reqs`, served in order from
`storage`, carry for the conversation `key`: one for each request on the send
route that is answered 200 and whose derived key is `key`. -/
def sentTo (key : GoString) : List Request → DialogStorage → List DialogMessage
  | [], _ => []
  | r :: rest, storage =>
    (if r.route = .send ∧ (serve r storage).1.status = 200
          ∧ createDialogKey r.header r.param = key
      then [sentMessage r] else [])
      ++ sentTo key rest (serve r storage).2

/-- No stored message has a sender or recipient that contains `_`. -/
def SepFree (storage : DialogStorage) : Prop :=
  ∀ e ∈ storage.dialogs.entries, ∀ m ∈ e.2.toList, noSep m.From ∧ noSep m.To

instance (storage : DialogStorage) : Decidable (SepFree storage) := by
  unfold SepFree; infer_instance

/-- Every stored conversation has a message, and every message is stored
under the key of its sender and recipient. -/
def KeyedByParties (storage : DialogStorage) : Prop :=
  ∀ e ∈ storage.dialogs.entries,
    e.2.toList ≠ [] ∧ ∀ m ∈ e.2.toList, createDialogKey m.From m.To = e.1

instance (storage : DialogStorage) : Decidable (KeyedByParties storage) := by
  unfold KeyedByParties; infer_instance

/-- The number of conversation keys in the storage: the size of the set of
keys that have a binding. -/
def conversationCount (storage : DialogStorage) : Nat :=
  (storage.dialogs.entries.map Prod.fst).toFinset.card

/-- The sum of the lengths of all conversations of the storage. -/
def totalMessageCount (storage : DialogStorage) : Nat :=
  (storage.dialogs.entries.map (fun e => e.2.toList.length)).sum

/-- The messages of a conversation are in non-decreasing order of their
`Timestamp`. -/
def TimestampOrdered (ms : List DialogMessage) : Prop :=
  ms.Pairwise (fun m1 m2 => m1.Timestamp ≤ m2.Timestamp)

instance (ms : List DialogMessage) : Decidable (TimestampOrdered ms) := by
  unfold TimestampOrdered; infer_instance

/-- No key is bound to an empty sequence, and every stored message is under
the key of its sender and recipient, has a sender that differs from its
recipient, a non-empty sender and a non-empty text. -/
def WellFormed (storage : DialogStorage) : Prop :=
  ∀ e ∈ storage.dialogs.entries,
    e.2.toList ≠ [] ∧ ∀ m ∈ e.2.toList,
      e.1 = createDialogKey m.From m.To ∧ m.From ≠ m.To ∧ m.From ≠ [] ∧ m.Text ≠ []

instance (storage : DialogStorage) : Decidable (WellFormed storage) := by
  unfold WellFormed; infer_instance

/-- A reachable storage for examples: `alice` has sent `hi` to `bob`. -/
def exampleStorage : DialogStorage :=
  run [⟨.send, str "alice", str "bob", .object (some (str "hi")), 1⟩] emptyStorage

/-! ### Requests that overlap

`sendMessage` builds its message, reading the clock (main.go 74-79), before it
takes the lock (main.go 83), so between the two another request can read the
clock and append. The definitions below split the handler at the lock and
let the two parts of different sends interleave. -/

/-- The part of `sendMessage` before the lock (main.go 60-81): bind the body,
refuse a send to oneself, build the message with `now` the value of
`time.Now()`, derive the key. `error` is the response of an early return. -/
def sendMessagePrepare (c : Context) (now : Time) :
    Except Response (GoString × DialogMessage) :=
  let currentUserId := c.userId
  let toUserId := c.param
  match shouldBindJSON c.body with
  | none => .error ⟨StatusBadRequest, .message "Invalid request data"⟩
  | some req =>
    if currentUserId = toUserId then
      .error ⟨StatusBadRequest, .message "Cannot send message to yourself"⟩
    else
      let message : DialogMessage :=
        { From := currentUserId, To := toUserId, Text := req.Text, Timestamp := now }
      let dialogKey := createDialogKey currentUserId toUserId
      .ok (dialogKey, message)

/-- The part of `sendMessage` under the lock and after it (main.go 83-88):
append the message under its key and answer 200. -/
def sendMessageCommit (p : GoString × DialogMessage) (storage : DialogStorage) :
    Response × DialogStorage :=
  (⟨StatusOK, .message "Message sent successfully"⟩,
    ⟨storage.dialogs.set p.1 ((storage.dialogs.index p.1).append p.2)⟩)

/-- What a request leaves waiting for the lock: for a request on the send
route that passes `userContextMiddleware` and the checks of `sendMessage`, the
key and the message, stamped with the reading `r.now` of the clock; nothing for
any other request. -/
def inFlightOf (r : Request) : Option (GoString × DialogMessage) :=
  match r.route with
  | .send =>
    let c := newContext r
    let userId := c.header
    if userId = [] then none
    else
      match sendMessagePrepare { c with userId := userId } r.now with
      | .ok p => some p
      | .error _ => none
  | _ => none

/-- The service while requests overlap: the storage, and the sends that have
built their message and have not taken the lock yet. -/
structure System where
  storage : DialogStorage
  inFlight : List (GoString × DialogMessage)
  deriving DecidableEq

/-- The service at process start. -/
def initialSystem : System := ⟨emptyStorage, []⟩

/-- What happens, in the order of real time: a request reaches its handler and
runs up to the lock, `r.now` being the reading of the clock at that moment; or
the send at position `i` among those in flight takes the lock. -/
inductive Event where
  | arrive (r : Request)
  | commit (i : Nat)
  deriving DecidableEq, Repr

/-- One event. An arriving send that passes its checks joins the sends in
flight; any other arriving request is served whole (it takes the lock at most
for reading, and a refused send not at all). A commit appends the message of
the send that takes the lock. -/
def step (s : System) : Event → System
  | .arrive r =>
    match inFlightOf r with
    | some p => { s with inFlight := s.inFlight ++ [p] }
    | none => { s with storage := (serve r s.storage).2 }
  | .commit i =>
    match s.inFlight[i]? with
    | some p => ⟨(sendMessageCommit p s.storage).2, s.inFlight.eraseIdx i⟩
    | none => s

/-- The service after a sequence of events. -/
def runEvents : List Event → System → System
  | [], s => s
  | e :: rest, s => runEvents rest (step s e)

/-- The readings of the clock made in a sequence of events, in order. -/
def readings : List Event → List Time
  | [] => []
  | .arrive r :: rest => r.now :: readings rest
  | .commit _ :: rest => readings rest

/-- The clock never goes backwards: of two readings, the later one in real
time is not the smaller one. -/
def ClockNeverBackwards (sched : List Event) : Prop :=
  (readings sched).Pairwise (fun t1 t2 => t1 ≤ t2)

instance (sched : List Event) : Decidable (ClockNeverBackwards sched) := by
  unfold ClockNeverBackwards; infer_instance

/-- Sends to one conversation do not overlap: whenever a send that will be
stored arrives, no send with the same key is in flight. -/
def Serialized : List Event → System → Prop
  | [], _ => True
  | .arrive r :: rest, s =>
    (∀ p ∈ inFlightOf r, p.1 ∉ s.inFlight.map Prod.fst)
      ∧ Serialized rest (step s (.arrive r))
  | .commit i :: rest, s => Serialized rest (step s (.commit i))

instance instDecidableSerialized :
    (sched : List Event) → (s : System) → Decidable (Serialized sched s)
  | [], _ => isTrue trivial
  | .arrive r :: rest, s =>
    have := instDecidableSerialized rest (step s (.arrive r))
    by unfold Serialized; infer_instance
  | .commit i :: rest, s =>
    have := instDecidableSerialized rest (step s (.commit i))
    by unfold Serialized; infer_instance

/-- The events of requests served one at a time: each request arrives and, if
it is a send in flight, takes the lock before the next request arrives. -/
def oneAtATime : List Request → List Event
  | [] => []
  | r :: rest => .arrive r :: .commit 0 :: oneAtATime rest

/-- What holds of the service while sends to one conversation do not overlap,
`bound` being the latest reading of the clock: every list is ordered, no stamp
stored or in flight is later than `bound`, the messages stored under the key
of a send in flight are not later than its stamp, and no two sends in flight
have the same key. -/
structure Ordered (s : System) (bound : Time) : Prop where
  stored : ∀ key, TimestampOrdered (s.storage.messages key)
  storedBound : ∀ key, ∀ m ∈ s.storage.messages key, m.Timestamp ≤ bound
  flightBound : ∀ p ∈ s.inFlight, p.2.Timestamp ≤ bound
  behind : ∀ p ∈ s.inFlight, ∀ m ∈ s.storage.messages p.1, m.Timestamp ≤ p.2.Timestamp
  oneEach : (s.inFlight.map Prod.fst).Nodup

end DialogService

namespace Monolith

/-! ### The dialog relay of the edge service (`src/monolith/main.go`) -/

/-- The request `makeDialogServiceRequest` builds (main.go 577-588): method,
URL, body (`none` when the `body` argument is nil) and the two headers. -/
structure HttpRequest where
  method : GoString
  url : GoString
  body : Option GoString
  userIdHeader : GoString
  contentType : GoString
  deriving DecidableEq, Repr

/-- The answer of the dialog service as `client.Do` returns it: the status
code, and the bytes `io.ReadAll(resp.Body)` reads (`none`: the read fails). -/
structure HttpResponse where
  StatusCode : Nat
  body : Option GoString
  deriving DecidableEq, Repr

/-- What lies outside an edge handler during one request: the configured URL
of the dialog service, the answer of the `SELECT EXISTS` query on the users
table (`none`: the query fails), and the outcome of `http.NewRequest` followed
by `client.Do` with its 10 second timeout (`none`: an error is returned, for a
refused connection or a timeout). -/
structure World where
  dialogServiceURL : GoString
  recipientExists : GoString → Option Bool
  roundTrip : HttpRequest → Option HttpResponse

/-- The part of `*gin.Context` the edge handlers read: the authenticated
caller, the path parameter `user_id`, and the bytes `io.ReadAll` reads from
the request body (`none`: the read fails). -/
structure Context where
  userId : GoString
  param : GoString
  requestBody : Option GoString
  deriving DecidableEq, Repr

/-- Bodies the edge handlers write: `gin.H` with a message, `gin.H` with a
message and a code, or the bytes relayed with `c.Data`. -/
inductive RespBody where
  | message (text : String)
  | messageCode (text : String) (code : Nat)
  | data (contentType : String) (raw : GoString)
  deriving DecidableEq, Repr

/-- Status of the HTTP response and its body. -/
structure Response where
  status : Nat
  body : RespBody
  deriving DecidableEq, Repr

def StatusBadRequest : Nat := 400
def StatusInternalServerError : Nat := 500
def StatusServiceUnavailable : Nat := 503

/-- Go `makeDialogServiceRequest` (main.go 577-588); `none` is the error. -/
def makeDialogServiceRequest (w : World) (method path : GoString) (body : Option GoString)
    (userId : GoString) : Option HttpResponse :=
  let url := w.dialogServiceURL ++ path
  w.roundTrip
    { method := method, url := url, body := body, userIdHeader := userId,
      contentType := str "application/json" }

/-- Go `sendMessage` of the edge service (main.go 520-553). -/
def sendMessage (w : World) (c : Context) : Response :=
  let currentUserId := c.userId
  let toUserId := c.param
  match w.recipientExists toUserId with
  | none => ⟨StatusBadRequest, .message "Recipient not found"⟩
  | some false => ⟨StatusBadRequest, .message "Recipient not found"⟩
  | some true =>
    match c.requestBody with
    | none => ⟨StatusBadRequest, .message "Failed to read request body"⟩
    | some bodyBytes =>
      let path := str "/dialog/" ++ toUserId ++ str "/send"
      match makeDialogServiceRequest w (str "POST") path (some bodyBytes) currentUserId with
      | none =>
        ⟨StatusInternalServerError, .messageCode "Dialog service unavailable" 503⟩
      | some resp =>
        match resp.body with
        | none =>
          ⟨StatusInternalServerError, .message "Failed to read dialog service response"⟩
        | some respBody => ⟨resp.StatusCode, .data "application/json" respBody⟩

/-- Go `getDialog` of the edge service (main.go 555-575). -/
def getDialog (w : World) (c : Context) : Response :=
  let currentUserId := c.userId
  let otherUserId := c.param
  let path := str "/dialog/" ++ otherUserId ++ str "/list"
  match makeDialogServiceRequest w (str "GET") path none currentUserId with
  | none =>
    ⟨StatusInternalServerError, .messageCode "Dialog service unavailable" 503⟩
  | some resp =>
    match resp.body with
    | none =>
      ⟨StatusInternalServerError, .message "Failed to read dialog service response"⟩
    | some respBody => ⟨resp.StatusCode, .data "application/json" respBody⟩

/-- A world in which every recipient exists and the dialog service cannot be
reached: every outbound call returns an error. -/
def unreachableWorld : World :=
  { dialogServiceURL := str "http://dialog-service:8081",
    recipientExists := fun _ => some true,
    roundTrip := fun _ => none }

/-- A world in which the dialog service answers 200 and the read of the body
of its answer fails. -/
def brokenRelayWorld : World :=
  { dialogServiceURL := str "http://dialog-service:8081",
    recipientExists := fun _ => some true,
    roundTrip := fun _ => some ⟨200, none⟩ }

end Monolith

/-! ## Facts about the string order -/

theorem strLt_irrefl (a : GoString) : strLt a a = false := by
  induction a with
  | nil => rfl
  | cons x xs ih => simp [strLt, ih]

theorem strLt_asymm : ∀ (a b : GoString), strLt a b = true → strLt b a = false
  | [], [], _ => rfl
  | [], _ :: _, _ => rfl
  | _ :: _, [], h => by simp [strLt] at h
  | x :: xs, y :: ys, h => by
    rcases lt_trichotomy x y with hxy | hxy | hxy
    · simp [strLt, hxy, lt_asymm hxy]
    · subst hxy
      simp only [strLt, lt_irrefl, if_false] at h ⊢
      exact strLt_asymm xs ys h
    · simp [strLt, hxy, lt_asymm hxy] at h

theorem strLt_total : ∀ (a b : GoString), strLt a b = false → strLt b a = false → a = b
  | [], [], _, _ => rfl
  | [], _ :: _, h, _ => by simp [strLt] at h
  | _ :: _, [], _, h => by simp [strLt] at h
  | x :: xs, y :: ys, h1, h2 => by
    rcases lt_trichotomy x y with hxy | hxy | hxy
    · simp [strLt, hxy] at h1
    · subst hxy
      simp only [strLt, lt_irrefl, if_false] at h1 h2
      rw [strLt_total xs ys h1 h2]
    · simp [strLt, hxy] at h2

theorem str_sep : str "_" = [(95 : Byte)] := by decide

namespace DialogService

/-! ## Facts about the key -/

theorem createDialogKey_eq (a b : GoString) :
    createDialogKey a b = keyFirst a b ++ (95 : Byte) :: keySecond a b := by
  unfold createDialogKey keyFirst keySecond
  rw [str_sep]
  split <;> simp

theorem keyFirst_keySecond (a b : GoString) :
    (keyFirst a b = a ∧ keySecond a b = b) ∨ (keyFirst a b = b ∧ keySecond a b = a) := by
  unfold keyFirst keySecond
  split
  · exact Or.inl ⟨rfl, rfl⟩
  · exact Or.inr ⟨rfl, rfl⟩

/-- A sequence splits in one way only at its first separator. -/
theorem split_at_sep_unique : ∀ (x x2 y y2 : GoString), noSep x → noSep x2 →
    x ++ (95 : Byte) :: y = x2 ++ (95 : Byte) :: y2 → x = x2 ∧ y = y2
  | [], [], _, _, _, _, h => by simpa using h
  | [], c :: cs, _, _, _, h2, h => by
    simp only [List.nil_append, List.cons_append, List.cons.injEq] at h
    exact absurd (h.1 ▸ List.mem_cons_self _ _) h2
  | c :: cs, [], _, _, h1, _, h => by
    simp only [List.nil_append, List.cons_append, List.cons.injEq] at h
    exact absurd (h.1 ▸ List.mem_cons_self _ _) h1
  | c :: cs, e :: es, y, y2, h1, h2, h => by
    simp only [List.cons_append, List.cons.injEq] at h
    have ih := split_at_sep_unique cs es y y2
      (fun hz => h1 (List.mem_cons_of_mem _ hz))
      (fun hz => h2 (List.mem_cons_of_mem _ hz)) h.2
    exact ⟨by rw [h.1, ih.1], ih.2⟩

theorem samePair_of_first_second (a b c d : GoString)
    (h1 : keyFirst a b = keyFirst c d) (h2 : keySecond a b = keySecond c d) :
    samePair a b c d := by
  unfold samePair
  rcases keyFirst_keySecond a b with ⟨pa, pb⟩ | ⟨pa, pb⟩ <;>
  rcases keyFirst_keySecond c d with ⟨pc, pd⟩ | ⟨pc, pd⟩ <;>
  rw [pa, pc] at h1 <;> rw [pb, pd] at h2
  · exact Or.inl ⟨h1, h2⟩
  · exact Or.inr ⟨h1, h2⟩
  · exact Or.inr ⟨h2, h1⟩
  · exact Or.inl ⟨h2, h1⟩

theorem samePair_of_key_eq (a b c d : GoString)
    (hab : noSep (keyFirst a b)) (hcd : noSep (keyFirst c d))
    (h : createDialogKey a b = createDialogKey c d) : samePair a b c d := by
  rw [createDialogKey_eq, createDialogKey_eq] at h
  obtain ⟨h1, h2⟩ := split_at_sep_unique _ _ _ _ hab hcd h
  exact samePair_of_first_second a b c d h1 h2

theorem noSep_keyFirst (a b : GoString) (ha : noSep a) (hb : noSep b) :
    noSep (keyFirst a b) := by
  unfold keyFirst; split <;> assumption

theorem createDialogKey_swap (a b : GoString) :
    createDialogKey a b = createDialogKey b a := by
  unfold createDialogKey
  cases hab : strLt a b with
  | true => simp [strLt_asymm a b hab]
  | false =>
    cases hba : strLt b a with
    | true => simp
    | false => simp [strLt_total a b hab hba]

/-! ## Claims C1 to C3: the conversation key -/

/-- C1. Key symmetry: for all identities `a` and `b`, equal or not,
`createDialogKey a b = createDialogKey b a`. -/
theorem createDialogKey_comm (a b : GoString) :
    createDialogKey a b = createDialogKey b a :=
  createDialogKey_swap a b

/-- C2, counterexample. The pair of `a_b` and `c` and the pair of `a` and `b_c`
differ and both get the key `a_b_c`: the key is not distinct for every other
unordered pair. -/
theorem createDialogKey_collision :
    createDialogKey (str "a_b") (str "c") = createDialogKey (str "a") (str "b_c")
      ∧ ¬ samePair (str "a_b") (str "c") (str "a") (str "b_c") := by
  decide

/-- C2, amended. When the identity placed before the separator (the smaller or
equal one of its pair) contains no `_` in either pair, equal keys come from
equal unordered pairs. -/
theorem createDialogKey_inj_of_first_noSep (a b c d : GoString)
    (hab : noSep (keyFirst a b)) (hcd : noSep (keyFirst c d))
    (h : createDialogKey a b = createDialogKey c d) : samePair a b c d :=
  samePair_of_key_eq a b c d hab hcd h

theorem createDialogKey_inj_of_first_noSep_witness :
    noSep (keyFirst (str "alice") (str "b_ob"))
      ∧ noSep (keyFirst (str "b_ob") (str "alice"))
      ∧ createDialogKey (str "alice") (str "b_ob") = createDialogKey (str "b_ob") (str "alice")
      ∧ samePair (str "alice") (str "b_ob") (str "b_ob") (str "alice") :=
  ⟨by decide, by decide, by decide,
    createDialogKey_inj_of_first_noSep (str "alice") (str "b_ob") (str "b_ob") (str "alice")
      (by decide) (by decide) (by decide)⟩

/-- C3. Key distinctness under the separator precondition: when none of the
identities `a`, `b`, `c`, `d` contains `_` (the empty identity included), equal
keys come from equal unordered pairs. -/
theorem createDialogKey_inj_of_noSep (a b c d : GoString)
    (ha : noSep a) (hb : noSep b) (hc : noSep c) (hd : noSep d)
    (h : createDialogKey a b = createDialogKey c d) : samePair a b c d :=
  samePair_of_key_eq a b c d (noSep_keyFirst a b ha hb) (noSep_keyFirst c d hc hd) h

theorem createDialogKey_inj_of_noSep_witness :
    noSep (str "") ∧ noSep (str "bob") ∧ noSep (str "bob") ∧ noSep (str "")
      ∧ createDialogKey (str "") (str "bob") = createDialogKey (str "bob") (str "")
      ∧ samePair (str "") (str "bob") (str "bob") (str "") :=
  ⟨by decide, by decide, by decide, by decide, by decide,
    createDialogKey_inj_of_noSep (str "") (str "bob") (str "bob") (str "")
      (by decide) (by decide) (by decide) (by decide) (by decide)⟩

end DialogService

namespace DialogService

/-! ## Facts about the map -/

theorem lookupEntries_setEntries_self (k : GoString) (v : Slice) :
    ∀ l : List (GoString × Slice), lookupEntries k (setEntries k v l) = some v
  | [] => by simp [setEntries, lookupEntries]
  | (k2, v2) :: rest => by
    by_cases hk : k2 = k
    · simp [setEntries, lookupEntries, hk]
    · simp [setEntries, lookupEntries, hk, lookupEntries_setEntries_self k v rest]

theorem lookupEntries_setEntries_ne (k k3 : GoString) (v : Slice) (hne : k3 ≠ k) :
    ∀ l : List (GoString × Slice), lookupEntries k3 (setEntries k v l) = lookupEntries k3 l
  | [] => by simp [setEntries, lookupEntries, Ne.symm hne]
  | (k2, v2) :: rest => by
    by_cases hk : k2 = k
    · subst hk
      simp [setEntries, lookupEntries, Ne.symm hne]
    · by_cases hk3 : k2 = k3
      · subst hk3
        simp [setEntries, lookupEntries, hk]
      · simp [setEntries, lookupEntries, hk, hk3, lookupEntries_setEntries_ne k k3 v hne rest]

theorem get?_set_self (m : GoMap) (k : GoString) (v : Slice) :
    (m.set k v).get? k = some v :=
  lookupEntries_setEntries_self k v m.entries

theorem get?_set_ne (m : GoMap) (k k3 : GoString) (v : Slice) (hne : k3 ≠ k) :
    (m.set k v).get? k3 = m.get? k3 :=
  lookupEntries_setEntries_ne k k3 v hne m.entries

theorem index_set_self (m : GoMap) (k : GoString) (v : Slice) :
    (m.set k v).index k = v := by
  simp [GoMap.index, get?_set_self]

theorem index_set_ne (m : GoMap) (k k3 : GoString) (v : Slice) (hne : k3 ≠ k) :
    (m.set k v).index k3 = m.index k3 := by
  simp [GoMap.index, get?_set_ne m k k3 v hne]

/-! ## Facts about the handlers -/

theorem shouldBindJSON_eq_some (b : ReqBody) (req : MessageSendRequest) :
    shouldBindJSON b = some req ↔ b = .object (some req.Text) ∧ req.Text ≠ [] := by
  obtain ⟨t⟩ := req
  cases b with
  | malformed => simp [shouldBindJSON]
  | object text =>
    cases text with
    | none => simp [shouldBindJSON]
    | some t2 =>
      by_cases ht : t2 = []
      · subst ht
        simp only [shouldBindJSON, Option.getD_some, if_true, ne_eq, false_iff, not_and,
          not_not, reduceCtorEq]
        intro h
        injection h with h
        injection h with h
        exact h.symm
      · simp only [shouldBindJSON, Option.getD_some, ht, if_false, Option.some.injEq,
          MessageSendRequest.mk.injEq, ne_eq, ReqBody.object.injEq]
        constructor
        · intro h; subst h; exact ⟨rfl, ht⟩
        · intro h; exact h.1

theorem sendMessage_ok (c : Context) (now : Time) (storage : DialogStorage) (t : GoString)
    (hbody : c.body = .object (some t)) (ht : t ≠ []) (hne : c.userId ≠ c.param) :
    sendMessage c now storage =
      (⟨StatusOK, .message "Message sent successfully"⟩,
        ⟨storage.dialogs.set (createDialogKey c.userId c.param)
          ((storage.dialogs.index (createDialogKey c.userId c.param)).append
            ⟨c.userId, c.param, t, now⟩)⟩) := by
  have hb : shouldBindJSON c.body = some ⟨t⟩ :=
    (shouldBindJSON_eq_some c.body ⟨t⟩).2 ⟨hbody, ht⟩
  simp only [sendMessage, hb, hne, if_false]

theorem sendMessage_rejected (c : Context) (now : Time) (storage : DialogStorage)
    (h : ¬ ((∃ t, c.body = .object (some t) ∧ t ≠ []) ∧ c.userId ≠ c.param)) :
    (sendMessage c now storage).1.status = StatusBadRequest
      ∧ (sendMessage c now storage).2 = storage := by
  unfold sendMessage
  cases hb : shouldBindJSON c.body with
  | none => exact ⟨rfl, rfl⟩
  | some req =>
    have hreq := (shouldBindJSON_eq_some c.body req).1 hb
    by_cases hne : c.userId = c.param
    · simp only [hne, if_true, and_self]
    · exact absurd ⟨⟨req.Text, hreq.1, hreq.2⟩, hne⟩ h

theorem messages_after_send (storage : DialogStorage) (key : GoString) (m : DialogMessage) :
    (DialogStorage.mk (storage.dialogs.set key ((storage.dialogs.index key).append m))).messages key
      = storage.messages key ++ [m] := by
  simp [DialogStorage.messages, index_set_self, Slice.append, Slice.toList]

theorem messages_after_send_ne (storage : DialogStorage) (key k3 : GoString) (v : Slice)
    (hne : k3 ≠ key) :
    (DialogStorage.mk (storage.dialogs.set key v)).messages k3 = storage.messages k3 := by
  simp [DialogStorage.messages, index_set_ne _ _ _ _ hne]

theorem getDialog_eq (c : Context) (now : Time) (storage : DialogStorage) :
    getDialog c now storage =
      (⟨StatusOK, .messages (.elems (storage.messages (createDialogKey c.userId c.param)))⟩,
        storage) := by
  unfold getDialog DialogStorage.messages
  cases h : storage.dialogs.index (createDialogKey c.userId c.param) with
  | nil => simp [Slice.toList, h]
  | elems ms => simp [Slice.toList, h]

/-! ## Claims C4 to C6 and C9: send, the identity header, list -/

/-- C4. Send validation: in every storage, for every caller identity, recipient
and body, `sendMessage` answers 200 exactly when the body carries a non-empty
text and the sender differs from the recipient; in every other case (text
empty or missing, body malformed, or sender equal to recipient) it answers 400
and leaves the storage exactly as it was. -/
theorem sendMessage_validation (c : Context) (now : Time) (storage : DialogStorage) :
    ((sendMessage c now storage).1.status = 200
        ↔ (∃ t, c.body = .object (some t) ∧ t ≠ []) ∧ c.userId ≠ c.param)
      ∧ (¬ ((∃ t, c.body = .object (some t) ∧ t ≠ []) ∧ c.userId ≠ c.param) →
          (sendMessage c now storage).1.status = 400
            ∧ (sendMessage c now storage).2 = storage) := by
  refine ⟨⟨fun h => ?_, fun h => ?_⟩, fun h => sendMessage_rejected c now storage h⟩
  · by_contra hno
    have h400 := (sendMessage_rejected c now storage hno).1
    rw [h] at h400
    exact absurd h400 (by decide)
  · obtain ⟨⟨t, hbody, ht⟩, hne⟩ := h
    rw [sendMessage_ok c now storage t hbody ht hne]
    rfl

/-- C5. Identity precondition: on each of the protected routes send, list and
list-all, in every storage and for every path parameter, body and time, a
request with an absent (empty) `X-User-ID` header is answered 401 with the
storage unchanged, whatever the handler behind the middleware is (it does not
run); a request with a non-empty header is answered by the handler of the
route, run with that header value as the caller identity. -/
theorem identity_precondition (header param : GoString) (body : ReqBody) (now : Time)
    (storage : DialogStorage) :
    (header = [] →
        (∀ next : Handler, userContextMiddleware next ⟨header, param, body, []⟩ now storage
            = (⟨401, .message "User ID header required"⟩, storage))
        ∧ (∀ route, route ≠ Route.health →
            serve ⟨route, header, param, body, now⟩ storage
              = (⟨401, .message "User ID header required"⟩, storage)))
      ∧ (header ≠ [] →
        serve ⟨.send, header, param, body, now⟩ storage
            = sendMessage ⟨header, param, body, header⟩ now storage
          ∧ serve ⟨.list, header, param, body, now⟩ storage
            = getDialog ⟨header, param, body, header⟩ now storage
          ∧ serve ⟨.dialogs, header, param, body, now⟩ storage
            = getUserDialogs ⟨header, param, body, header⟩ now storage) := by
  constructor
  · intro h
    subst h
    refine ⟨fun next => rfl, fun route hr => ?_⟩
    cases route with
    | health => exact absurd rfl hr
    | send => rfl
    | list => rfl
    | dialogs => rfl
  · intro h
    simp [serve, setupRoutes, newContext, userContextMiddleware, h]

/-- C6. A send is visible to both parties: in every storage, for `a ≠ b` and a
non-empty text `t`, after the accepted send from `a` to `b` at time `now`, the
list `a` gets for `b` and the list `b` gets for `a` are the same sequence: the
one `a` got for `b` before the send, followed by the one message from `a` to `b`
with text `t` and timestamp `now`. -/
theorem send_visible_to_both (storage : DialogStorage) (a b t : GoString) (now t1 t2 t3 : Time)
    (body1 body2 body3 : ReqBody) (hab : a ≠ b) (ht : t ≠ []) :
    ∃ before : List DialogMessage,
      (getDialog ⟨a, b, body1, a⟩ t1 storage).1 = ⟨200, .messages (.elems before)⟩
      ∧ (sendMessage ⟨a, b, .object (some t), a⟩ now storage).1.status = 200
      ∧ (getDialog ⟨a, b, body2, a⟩ t2
            (sendMessage ⟨a, b, .object (some t), a⟩ now storage).2).1
          = ⟨200, .messages (.elems (before ++ [⟨a, b, t, now⟩]))⟩
      ∧ (getDialog ⟨b, a, body3, b⟩ t3
            (sendMessage ⟨a, b, .object (some t), a⟩ now storage).2).1
          = ⟨200, .messages (.elems (before ++ [⟨a, b, t, now⟩]))⟩ := by
  refine ⟨storage.messages (createDialogKey a b), ?_, ?_, ?_, ?_⟩
  · rw [getDialog_eq]; rfl
  · rw [sendMessage_ok _ now storage t rfl ht hab]; rfl
  · rw [sendMessage_ok _ now storage t rfl ht hab, getDialog_eq]
    simp only [messages_after_send]; rfl
  · rw [sendMessage_ok _ now storage t rfl ht hab, getDialog_eq]
    simp only [createDialogKey_swap b a, messages_after_send]; rfl

/-- C6, at a concrete input. From the empty storage, `alice` sending `hello` to
`bob` at time 7 gives exactly one message, from `alice` to `bob` with text
`hello`, in the view of `alice` and in the view of `bob`. -/
theorem send_visible_to_both_witness :
    (str "alice" ≠ str "bob" ∧ str "hello" ≠ [])
    ∧ (∃ before : List DialogMessage,
      (getDialog ⟨str "alice", str "bob", .malformed, str "alice"⟩ 0 emptyStorage).1
          = ⟨200, .messages (.elems before)⟩
      ∧ (sendMessage ⟨str "alice", str "bob", .object (some (str "hello")), str "alice"⟩ 7
            emptyStorage).1.status = 200
      ∧ (getDialog ⟨str "alice", str "bob", .malformed, str "alice"⟩ 8
            (sendMessage ⟨str "alice", str "bob", .object (some (str "hello")), str "alice"⟩ 7
              emptyStorage).2).1
          = ⟨200, .messages (.elems (before ++ [⟨str "alice", str "bob", str "hello", 7⟩]))⟩
      ∧ (getDialog ⟨str "bob", str "alice", .malformed, str "bob"⟩ 9
            (sendMessage ⟨str "alice", str "bob", .object (some (str "hello")), str "alice"⟩ 7
              emptyStorage).2).1
          = ⟨200, .messages (.elems (before ++ [⟨str "alice", str "bob", str "hello", 7⟩]))⟩)
    ∧ (getDialog ⟨str "alice", str "bob", .malformed, str "alice"⟩ 8
          (sendMessage ⟨str "alice", str "bob", .object (some (str "hello")), str "alice"⟩ 7
            emptyStorage).2).1
        = ⟨200, .messages (.elems [⟨str "alice", str "bob", str "hello", 7⟩])⟩
    ∧ (getDialog ⟨str "bob", str "alice", .malformed, str "bob"⟩ 9
          (sendMessage ⟨str "alice", str "bob", .object (some (str "hello")), str "alice"⟩ 7
            emptyStorage).2).1
        = ⟨200, .messages (.elems [⟨str "alice", str "bob", str "hello", 7⟩])⟩ :=
  ⟨⟨by decide, by decide⟩,
    send_visible_to_both emptyStorage (str "alice") (str "bob") (str "hello") 7 0 8 9
      .malformed .malformed .malformed (by decide) (by decide),
    by decide, by decide⟩

/-- C9. Empty-conversation default: in every storage, for every requester and
other party whose key has no stored messages (the key is absent, or bound to a
nil or empty slice), `getDialog` answers 200 with the empty array, not null,
and the storage after the call is the storage before it, so the number of
dialogs is unchanged. -/
theorem getDialog_empty (c : Context) (now : Time) (storage : DialogStorage)
    (h : (storage.dialogs.index (createDialogKey c.userId c.param)).len = 0) :
    getDialog c now storage = (⟨200, .messages (.elems [])⟩, storage)
      ∧ (getDialog c now storage).2.dialogs.len = storage.dialogs.len := by
  have hm : storage.messages (createDialogKey c.userId c.param) = [] :=
    List.length_eq_zero.mp h
  rw [getDialog_eq, hm]
  exact ⟨rfl, rfl⟩

theorem getDialog_empty_witness :
    (emptyStorage.dialogs.index (createDialogKey (str "alice") (str "bob"))).len = 0
      ∧ getDialog ⟨str "alice", str "bob", .malformed, str "alice"⟩ 3 emptyStorage
          = (⟨200, .messages (.elems [])⟩, emptyStorage)
      ∧ (getDialog ⟨str "alice", str "bob", .malformed, str "alice"⟩ 3
          emptyStorage).2.dialogs.len = emptyStorage.dialogs.len :=
  ⟨by decide,
    getDialog_empty ⟨str "alice", str "bob", .malformed, str "alice"⟩ 3 emptyStorage
      (by decide)⟩

end DialogService

namespace DialogService

/-! ## Facts about sequences of requests -/

theorem serve_send (r : Request) (storage : DialogStorage) (hroute : r.route = .send)
    (hh : r.header ≠ []) :
    serve r storage = sendMessage ⟨r.header, r.param, r.body, r.header⟩ r.now storage := by
  simp [serve, hroute, setupRoutes, newContext, userContextMiddleware, hh]

theorem serve_send_no_header (r : Request) (storage : DialogStorage) (hroute : r.route = .send)
    (hh : r.header = []) :
    serve r storage = (⟨StatusUnauthorized, .message "User ID header required"⟩, storage) := by
  simp [serve, hroute, setupRoutes, newContext, userContextMiddleware, hh]

theorem serve_not_send (r : Request) (storage : DialogStorage) (hroute : r.route ≠ .send) :
    (serve r storage).2 = storage := by
  obtain ⟨route, header, param, body, now⟩ := r
  cases route with
  | send => exact absurd rfl hroute
  | health => rfl
  | list =>
    by_cases hh : header = []
    · simp [serve, setupRoutes, newContext, userContextMiddleware, hh]
    · simp [serve, setupRoutes, newContext, userContextMiddleware, hh, getDialog]
  | dialogs =>
    by_cases hh : header = []
    · simp [serve, setupRoutes, newContext, userContextMiddleware, hh]
    · simp [serve, setupRoutes, newContext, userContextMiddleware, hh, getUserDialogs]

/-- A send is accepted exactly when the header is present, the body carries a
non-empty text and the sender is not the recipient; the storage plays no part. -/
theorem serve_send_status (r : Request) (storage : DialogStorage) (hroute : r.route = .send) :
    (serve r storage).1.status = 200
      ↔ r.header ≠ [] ∧ (∃ t, r.body = .object (some t) ∧ t ≠ []) ∧ r.header ≠ r.param := by
  by_cases hh : r.header = []
  · rw [serve_send_no_header r storage hroute hh]
    simp [hh, StatusUnauthorized]
  · rw [serve_send r storage hroute hh]
    by_cases hacc : (∃ t, r.body = .object (some t) ∧ t ≠ []) ∧ r.header ≠ r.param
    · obtain ⟨⟨t, hbody, ht⟩, hne⟩ := hacc
      rw [sendMessage_ok ⟨r.header, r.param, r.body, r.header⟩ r.now storage t hbody ht hne]
      simp only [StatusOK, true_iff]
      exact ⟨hh, ⟨t, hbody, ht⟩, hne⟩
    · have h400 := (sendMessage_rejected ⟨r.header, r.param, r.body, r.header⟩ r.now storage hacc).1
      rw [h400]
      simp only [StatusBadRequest]
      constructor
      · intro h; exact absurd h (by decide)
      · intro h; exact absurd h.2 hacc

/-- The storage after an accepted send. -/
theorem serve_send_accepted (r : Request) (storage : DialogStorage) (hroute : r.route = .send)
    (hok : (serve r storage).1.status = 200) :
    (serve r storage).2 =
      ⟨storage.dialogs.set (createDialogKey r.header r.param)
        ((storage.dialogs.index (createDialogKey r.header r.param)).append (sentMessage r))⟩ := by
  obtain ⟨hh, ⟨t, hbody, ht⟩, hne⟩ := (serve_send_status r storage hroute).1 hok
  rw [serve_send r storage hroute hh,
    sendMessage_ok ⟨r.header, r.param, r.body, r.header⟩ r.now storage t hbody ht hne]
  simp [sentMessage, hbody, ReqBody.text]

/-- The storage after a send that is not accepted. -/
theorem serve_send_refused (r : Request) (storage : DialogStorage) (hroute : r.route = .send)
    (hno : (serve r storage).1.status ≠ 200) : (serve r storage).2 = storage := by
  by_cases hh : r.header = []
  · rw [serve_send_no_header r storage hroute hh]
  · have hacc : ¬ ((∃ t, r.body = .object (some t) ∧ t ≠ []) ∧ r.header ≠ r.param) :=
      fun h => hno ((serve_send_status r storage hroute).2 ⟨hh, h.1, h.2⟩)
    rw [serve_send r storage hroute hh]
    exact (sendMessage_rejected ⟨r.header, r.param, r.body, r.header⟩ r.now storage hacc).2

/-- One request adds to the conversation `key` the message of `sentTo`, if any. -/
theorem serve_messages (r : Request) (storage : DialogStorage) (key : GoString) :
    (serve r storage).2.messages key = storage.messages key ++ sentTo key [r] storage := by
  by_cases hroute : r.route = .send
  · by_cases hok : (serve r storage).1.status = 200
    · rw [serve_send_accepted r storage hroute hok]
      by_cases hkey : createDialogKey r.header r.param = key
      · subst hkey
        simp [sentTo, hroute, hok, messages_after_send]
      · simp [sentTo, hroute, hok, hkey, messages_after_send_ne _ _ _ _ (Ne.symm hkey)]
    · rw [serve_send_refused r storage hroute hok]
      simp [sentTo, hok]
  · rw [serve_not_send r storage hroute]
    simp [sentTo, hroute]

theorem run_messages (key : GoString) :
    ∀ (reqs : List Request) (storage : DialogStorage),
      (run reqs storage).messages key = storage.messages key ++ sentTo key reqs storage
  | [], storage => by simp [run, sentTo]
  | r :: rest, storage => by
    rw [run, run_messages key rest (serve r storage).2, serve_messages r storage key]
    simp [sentTo, List.append_assoc]

theorem sentTo_all_accepted (key : GoString) :
    ∀ (reqs : List Request) (storage : DialogStorage),
      (∀ r ∈ reqs, r.route = .send ∧ r.header ≠ [] ∧ r.header ≠ r.param
          ∧ (∃ t, r.body = .object (some t) ∧ t ≠ [])
          ∧ createDialogKey r.header r.param = key) →
      sentTo key reqs storage = reqs.map sentMessage
  | [], _, _ => rfl
  | r :: rest, storage, h => by
    obtain ⟨hroute, hh, hne, hbody, hkey⟩ := h r (List.mem_cons_self _ _)
    have hok : (serve r storage).1.status = 200 :=
      (serve_send_status r storage hroute).2 ⟨hh, hbody, hne⟩
    have ih := sentTo_all_accepted key rest (serve r storage).2
      (fun r2 hr2 => h r2 (List.mem_cons_of_mem _ hr2))
    simp [sentTo, hroute, hok, hkey, ih]

/-! ## Claim C8: nothing lost, nothing merged -/

/-- C8. No lost, duplicated or deduplicated sends: from any storage and for any
finite sequence of requests served in order, the list stored (and returned by
`getDialog`) for a conversation key is the earlier list followed by one message
for each accepted send whose derived key is that key, in order; sends to other
keys add nothing to it. So `N` accepted sends to one key add exactly `N`
messages, and an accepted send served twice adds its message twice. -/
theorem sends_appended (reqs : List Request) (storage : DialogStorage) :
    (∀ key, (run reqs storage).messages key
        = storage.messages key ++ sentTo key reqs storage)
      ∧ (∀ (c : Context) (now : Time),
          (getDialog c now (run reqs storage)).1
            = ⟨200, .messages (.elems
                (storage.messages (createDialogKey c.userId c.param)
                  ++ sentTo (createDialogKey c.userId c.param) reqs storage))⟩)
      ∧ (∀ key,
          (∀ r ∈ reqs, r.route = .send ∧ r.header ≠ [] ∧ r.header ≠ r.param
              ∧ (∃ t, r.body = .object (some t) ∧ t ≠ [])
              ∧ createDialogKey r.header r.param = key) →
          (run reqs storage).messages key = storage.messages key ++ reqs.map sentMessage
            ∧ ((run reqs storage).messages key).length
                = (storage.messages key).length + reqs.length)
      ∧ (∀ r : Request, r.route = .send → (serve r storage).1.status = 200 →
          (run [r, r] storage).messages (createDialogKey r.header r.param)
            = storage.messages (createDialogKey r.header r.param)
                ++ [sentMessage r, sentMessage r]) := by
  refine ⟨fun key => run_messages key reqs storage, fun c now => ?_, fun key h => ?_,
    fun r hroute hok => ?_⟩
  · rw [getDialog_eq, run_messages]; rfl
  · have hs := sentTo_all_accepted key reqs storage h
    rw [run_messages, hs]
    simp
  · have hacc := (serve_send_status r storage hroute).1 hok
    have hs := sentTo_all_accepted (createDialogKey r.header r.param) [r, r] storage
      (fun r2 hr2 => by
        have : r2 = r := by simpa using hr2
        subst this
        exact ⟨hroute, hacc.1, hacc.2.2, hacc.2.1, rfl⟩)
    rw [run_messages, hs]
    rfl

end DialogService

namespace DialogService

/-! ## Facts about the bindings and the invariant of the storage -/

theorem mem_setEntries (k : GoString) (v : Slice) (e : GoString × Slice) :
    ∀ l : List (GoString × Slice), e ∈ setEntries k v l → e = (k, v) ∨ e ∈ l
  | [], h => by simpa [setEntries] using h
  | (k2, v2) :: rest, h => by
    by_cases hk : k2 = k
    · simp only [setEntries, hk, if_true, List.mem_cons] at h ⊢
      rcases h with h | h
      · exact Or.inl h
      · exact Or.inr (Or.inr h)
    · simp only [setEntries, hk, if_false, List.mem_cons] at h ⊢
      rcases h with h | h
      · exact Or.inr (Or.inl h)
      · rcases mem_setEntries k v e rest h with h2 | h2
        · exact Or.inl h2
        · exact Or.inr (Or.inr h2)

theorem lookupEntries_mem (k : GoString) (v : Slice) :
    ∀ l : List (GoString × Slice), lookupEntries k l = some v → (k, v) ∈ l
  | [], h => by simp [lookupEntries] at h
  | (k2, v2) :: rest, h => by
    by_cases hk : k2 = k
    · simp only [lookupEntries, hk, if_true, Option.some.injEq] at h
      simp [hk, h]
    · simp only [lookupEntries, hk, if_false] at h
      exact List.mem_cons_of_mem _ (lookupEntries_mem k v rest h)

theorem lookupEntries_none (k : GoString) :
    ∀ l : List (GoString × Slice), k ∉ l.map Prod.fst → lookupEntries k l = none
  | [], _ => rfl
  | (k2, v2) :: rest, h => by
    simp only [List.map_cons, List.mem_cons, not_or] at h
    simp [lookupEntries, Ne.symm h.1, lookupEntries_none k rest h.2]

/-- A message listed under a key belongs to a binding of that key. -/
theorem messages_mem (storage : DialogStorage) (key : GoString) (m : DialogMessage)
    (h : m ∈ storage.messages key) :
    ∃ v, (key, v) ∈ storage.dialogs.entries ∧ m ∈ v.toList := by
  unfold DialogStorage.messages GoMap.index at h
  cases hg : storage.dialogs.get? key with
  | none => simp [hg, Slice.toList] at h
  | some v =>
    rw [hg] at h
    exact ⟨v, lookupEntries_mem key v _ hg, h⟩

theorem keyed_empty : KeyedByParties emptyStorage := by
  intro e he
  simp [emptyStorage, GoMap.empty] at he

theorem keyed_serve (r : Request) (storage : DialogStorage) (h : KeyedByParties storage) :
    KeyedByParties (serve r storage).2 := by
  by_cases hroute : r.route = .send
  · by_cases hok : (serve r storage).1.status = 200
    · rw [serve_send_accepted r storage hroute hok]
      intro e he
      rcases mem_setEntries _ _ e _ he with he | he
      · subst he
        simp only [Slice.append, Slice.toList]
        refine ⟨by simp, fun m hm => ?_⟩
        rcases List.mem_append.mp hm with hm | hm
        · obtain ⟨v, hv, hmv⟩ := messages_mem storage _ m hm
          exact (h _ hv).2 m hmv
        · have : m = sentMessage r := by simpa using hm
          subst this
          rfl
      · exact h e he
    · rw [serve_send_refused r storage hroute hok]; exact h
  · rw [serve_not_send r storage hroute]; exact h

theorem keyed_run : ∀ (reqs : List Request) (storage : DialogStorage),
    KeyedByParties storage → KeyedByParties (run reqs storage)
  | [], _, h => h
  | r :: rest, storage, h => keyed_run rest _ (keyed_serve r storage h)

theorem keyed_of_reachable (storage : DialogStorage) (h : Reachable storage) :
    KeyedByParties storage := by
  obtain ⟨reqs, rfl⟩ := h
  exact keyed_run reqs emptyStorage keyed_empty

/-! ## Facts about `getUserDialogs` -/

theorem userDialogsStep_get?_ne (u : GoString) (acc : GoMap) (e : GoString × Slice)
    (k : GoString) (hne : k ≠ e.1) : (userDialogsStep u acc e).get? k = acc.get? k := by
  unfold userDialogsStep
  split
  · split
    · exact get?_set_ne acc e.1 k e.2 hne
    · rfl
  · rfl

theorem userDialogsStep_get?_acc (u : GoString) (acc acc2 : GoMap) (e : GoString × Slice)
    (h : acc.get? e.1 = acc2.get? e.1) :
    (userDialogsStep u acc e).get? e.1 = (userDialogsStep u acc2 e).get? e.1 := by
  unfold userDialogsStep
  split
  · split
    · rw [get?_set_self, get?_set_self]
    · exact h
  · exact h

/-- What the loop of `getUserDialogs` leaves under a key: what its step on the
binding of that key leaves, the other bindings having no effect on it. -/
theorem userDialogs_get? (u k : GoString) :
    ∀ (l : List (GoString × Slice)) (acc : GoMap), (l.map Prod.fst).Nodup →
      (l.foldl (userDialogsStep u) acc).get? k =
        match lookupEntries k l with
        | none => acc.get? k
        | some v => (userDialogsStep u acc (k, v)).get? k
  | [], acc, _ => by simp [lookupEntries]
  | (k2, v2) :: rest, acc, hnd => by
    simp only [List.map_cons, List.nodup_cons] at hnd
    rw [List.foldl_cons, userDialogs_get? u k rest _ hnd.2]
    by_cases hk : k2 = k
    · subst hk
      simp [lookupEntries, lookupEntries_none k2 rest hnd.1]
    · have hacc : (userDialogsStep u acc (k2, v2)).get? k = acc.get? k :=
        userDialogsStep_get?_ne u acc (k2, v2) k (Ne.symm hk)
      simp only [lookupEntries, hk, if_false]
      cases hl : lookupEntries k rest with
      | none => simpa using hacc
      | some v => exact userDialogsStep_get?_acc u _ acc (k, v) hacc

theorem getUserDialogs_get? (c : Context) (now : Time) (storage : DialogStorage)
    (key : GoString) (conv : Slice) (h : storage.dialogs.get? key = some conv) :
    ∃ d, getUserDialogs c now storage = (⟨200, .dialogs d⟩, storage)
      ∧ d.get? key = (userDialogsStep c.userId GoMap.empty (key, conv)).get? key := by
  refine ⟨_, rfl, ?_⟩
  rw [userDialogs_get? c.userId key _ _ storage.dialogs.nodup]
  unfold GoMap.get? at h
  rw [h]

end DialogService

namespace DialogService

/-! ## Claim C7: who sees a conversation -/

/-- The parties of the first message of a conversation after a send from `u1`
to `u2`, in a reachable storage whose identities contain no separator, are
`u1` and `u2`. -/
theorem first_message_parties (storage : DialogStorage) (u1 u2 : GoString)
    (m first : DialogMessage) (rest : List DialogMessage)
    (hkeyed : KeyedByParties storage) (hsep : SepFree storage)
    (h1 : noSep u1) (h2 : noSep u2) (hm1 : m.From = u1) (hm2 : m.To = u2)
    (hfirst : storage.messages (createDialogKey u1 u2) ++ [m] = first :: rest) :
    samePair first.From first.To u1 u2 := by
  cases hold : storage.messages (createDialogKey u1 u2) with
  | nil =>
    rw [hold] at hfirst
    simp only [List.nil_append, List.cons.injEq] at hfirst
    rw [← hfirst.1, hm1, hm2]
    exact Or.inl ⟨rfl, rfl⟩
  | cons m0 tail =>
    rw [hold] at hfirst
    simp only [List.cons_append, List.cons.injEq] at hfirst
    have hmem : m0 ∈ storage.messages (createDialogKey u1 u2) := by
      rw [hold]; exact List.mem_cons_self _ _
    obtain ⟨v, hv, hmv⟩ := messages_mem storage _ m0 hmem
    have hk := (hkeyed _ hv).2 m0 hmv
    have hs := hsep _ hv m0 hmv
    rw [← hfirst.1]
    exact samePair_of_key_eq m0.From m0.To u1 u2
      (noSep_keyFirst _ _ hs.1 hs.2) (noSep_keyFirst _ _ h1 h2) hk

/-- C7, counterexample. After `a_b` has sent to `c`, the storage is reachable
and `a` sends to `b_c` with success; the message lands in the conversation
`a_b_c` whose first message is between `a_b` and `c`, so the dialogs of `a` do
not contain the conversation, and the dialogs of the third identity `c` do. -/
theorem participant_completeness_fails :
    str "a" ≠ str "b_c" ∧ str "c" ≠ str "a" ∧ str "c" ≠ str "b_c"
      ∧ (sendMessage ⟨str "a", str "b_c", .object (some (str "y")), str "a"⟩ 2
          (run [⟨.send, str "a_b", str "c", .object (some (str "x")), 1⟩] emptyStorage)).1.status
          = 200
      ∧ (sendMessage ⟨str "a", str "b_c", .object (some (str "y")), str "a"⟩ 2
          (run [⟨.send, str "a_b", str "c", .object (some (str "x")), 1⟩]
            emptyStorage)).2.dialogs.get? (createDialogKey (str "a") (str "b_c"))
          = some (.elems [⟨str "a_b", str "c", str "x", 1⟩, ⟨str "a", str "b_c", str "y", 2⟩])
      ∧ (getUserDialogs ⟨str "a", [], .malformed, str "a"⟩ 3
          (sendMessage ⟨str "a", str "b_c", .object (some (str "y")), str "a"⟩ 2
            (run [⟨.send, str "a_b", str "c", .object (some (str "x")), 1⟩] emptyStorage)).2).1
          = ⟨200, .dialogs GoMap.empty⟩
      ∧ (getUserDialogs ⟨str "c", [], .malformed, str "c"⟩ 3
          (sendMessage ⟨str "a", str "b_c", .object (some (str "y")), str "a"⟩ 2
            (run [⟨.send, str "a_b", str "c", .object (some (str "x")), 1⟩] emptyStorage)).2).1
          = ⟨200, .dialogs (GoMap.empty.set (str "a_b_c")
              (.elems [⟨str "a_b", str "c", str "x", 1⟩, ⟨str "a", str "b_c", str "y", 2⟩]))⟩ := by
  decide

/-- C7, amended. Participant completeness without the separator in identities:
in every reachable storage none of whose stored identities contains `_`, for
`u1 ≠ u2` that contain no `_` and a non-empty text, the send from `u1` to `u2`
is accepted, and afterwards the dialogs of `u1` and the dialogs of `u2` both
hold, under `createDialogKey u1 u2`, the conversation the storage holds there
(the earlier messages followed by the new one), while the dialogs of every
caller other than `u1` and `u2` hold nothing under that key. -/
theorem participant_completeness (storage : DialogStorage) (u1 u2 t : GoString) (now : Time)
    (hreach : Reachable storage) (hsep : SepFree storage)
    (h12 : u1 ≠ u2) (h1 : noSep u1) (h2 : noSep u2) (ht : t ≠ []) :
    (sendMessage ⟨u1, u2, .object (some t), u1⟩ now storage).1.status = 200
      ∧ ∃ conv : Slice,
        (sendMessage ⟨u1, u2, .object (some t), u1⟩ now storage).2.dialogs.get?
            (createDialogKey u1 u2) = some conv
        ∧ conv.toList = storage.messages (createDialogKey u1 u2) ++ [⟨u1, u2, t, now⟩]
        ∧ (∀ (c : Context) (t2 : Time), c.userId = u1 ∨ c.userId = u2 →
            ∃ d, (getUserDialogs c t2
                  (sendMessage ⟨u1, u2, .object (some t), u1⟩ now storage).2).1
                = ⟨200, .dialogs d⟩
              ∧ d.get? (createDialogKey u1 u2) = some conv)
        ∧ (∀ (c : Context) (t2 : Time), c.userId ≠ u1 → c.userId ≠ u2 →
            ∃ d, (getUserDialogs c t2
                  (sendMessage ⟨u1, u2, .object (some t), u1⟩ now storage).2).1
                = ⟨200, .dialogs d⟩
              ∧ d.get? (createDialogKey u1 u2) = none) := by
  have hkeyed := keyed_of_reachable storage hreach
  rw [sendMessage_ok ⟨u1, u2, .object (some t), u1⟩ now storage t rfl ht h12]
  refine ⟨rfl, _, get?_set_self _ _ _, rfl, ?_, ?_⟩
  · intro c t2 hc
    obtain ⟨d, hd, hget⟩ := getUserDialogs_get? c t2 _ _ _
      (get?_set_self storage.dialogs (createDialogKey u1 u2)
        ((storage.dialogs.index (createDialogKey u1 u2)).append ⟨u1, u2, t, now⟩))
    refine ⟨d, congrArg Prod.fst hd, ?_⟩
    rw [hget]
    unfold userDialogsStep
    simp only [Slice.append, Slice.toList]
    split
    · rename_i first rest hfirst
      have hp := first_message_parties storage u1 u2 ⟨u1, u2, t, now⟩ first rest
        hkeyed hsep h1 h2 rfl rfl hfirst
      have hin : first.From = c.userId ∨ first.To = c.userId := by
        rcases hp with ⟨pa, pb⟩ | ⟨pa, pb⟩ <;> rcases hc with hc | hc
        · exact Or.inl (pa.trans hc.symm)
        · exact Or.inr (pb.trans hc.symm)
        · exact Or.inr (pb.trans hc.symm)
        · exact Or.inl (pa.trans hc.symm)
      rw [if_pos hin]
      exact get?_set_self _ _ _
    · rename_i hnil
      simp at hnil
  · intro c t2 hc1 hc2
    obtain ⟨d, hd, hget⟩ := getUserDialogs_get? c t2 _ _ _
      (get?_set_self storage.dialogs (createDialogKey u1 u2)
        ((storage.dialogs.index (createDialogKey u1 u2)).append ⟨u1, u2, t, now⟩))
    refine ⟨d, congrArg Prod.fst hd, ?_⟩
    rw [hget]
    unfold userDialogsStep
    simp only [Slice.append, Slice.toList]
    split
    · rename_i first rest hfirst
      have hp := first_message_parties storage u1 u2 ⟨u1, u2, t, now⟩ first rest
        hkeyed hsep h1 h2 rfl rfl hfirst
      have hout : ¬ (first.From = c.userId ∨ first.To = c.userId) := by
        rcases hp with ⟨pa, pb⟩ | ⟨pa, pb⟩
        · rintro (hx | hx)
          · exact hc1 (hx.symm.trans pa)
          · exact hc2 (hx.symm.trans pb)
        · rintro (hx | hx)
          · exact hc2 (hx.symm.trans pa)
          · exact hc1 (hx.symm.trans pb)
      rw [if_neg hout]
      rfl
    · rfl

end DialogService

namespace DialogService

theorem participant_completeness_witness :
    (Reachable exampleStorage ∧ SepFree exampleStorage ∧ str "bob" ≠ str "alice"
      ∧ noSep (str "bob") ∧ noSep (str "alice") ∧ str "yo" ≠ [])
    ∧ ((sendMessage ⟨str "bob", str "alice", .object (some (str "yo")), str "bob"⟩ 2
          exampleStorage).1.status = 200
      ∧ ∃ conv : Slice,
        (sendMessage ⟨str "bob", str "alice", .object (some (str "yo")), str "bob"⟩ 2
            exampleStorage).2.dialogs.get? (createDialogKey (str "bob") (str "alice")) = some conv
        ∧ conv.toList = exampleStorage.messages (createDialogKey (str "bob") (str "alice"))
            ++ [⟨str "bob", str "alice", str "yo", 2⟩]
        ∧ (∀ (c : Context) (t2 : Time), c.userId = str "bob" ∨ c.userId = str "alice" →
            ∃ d, (getUserDialogs c t2
                  (sendMessage ⟨str "bob", str "alice", .object (some (str "yo")), str "bob"⟩ 2
                    exampleStorage).2).1
                = ⟨200, .dialogs d⟩
              ∧ d.get? (createDialogKey (str "bob") (str "alice")) = some conv)
        ∧ (∀ (c : Context) (t2 : Time), c.userId ≠ str "bob" → c.userId ≠ str "alice" →
            ∃ d, (getUserDialogs c t2
                  (sendMessage ⟨str "bob", str "alice", .object (some (str "yo")), str "bob"⟩ 2
                    exampleStorage).2).1
                = ⟨200, .dialogs d⟩
              ∧ d.get? (createDialogKey (str "bob") (str "alice")) = none)) :=
  ⟨⟨⟨_, rfl⟩, by decide, by decide, by decide, by decide, by decide⟩,
    participant_completeness exampleStorage (str "bob") (str "alice") (str "yo") 2
      ⟨_, rfl⟩ (by decide) (by decide) (by decide) (by decide) (by decide)⟩

end DialogService

namespace Monolith

/-! ## Claim C10: the dialog service cannot be reached -/

/-- Whatever the world and the request, a failed outbound call makes the edge
`getDialog` answer status 500 with the body code 503. -/
theorem getDialog_unavailable (w : World) (c : Context)
    (h : makeDialogServiceRequest w (str "GET") (str "/dialog/" ++ c.param ++ str "/list")
          none c.userId = none) :
    getDialog w c = ⟨500, .messageCode "Dialog service unavailable" 503⟩ := by
  simp only [getDialog, h, StatusInternalServerError]

/-- Whatever the world and the request, once the recipient exists and the body
is read, a failed outbound call makes the edge `sendMessage` answer status 500
with the body code 503. -/
theorem sendMessage_unavailable (w : World) (c : Context) (bodyBytes : GoString)
    (hex : w.recipientExists c.param = some true) (hbody : c.requestBody = some bodyBytes)
    (h : makeDialogServiceRequest w (str "POST") (str "/dialog/" ++ c.param ++ str "/send")
          (some bodyBytes) c.userId = none) :
    sendMessage w c = ⟨500, .messageCode "Dialog service unavailable" 503⟩ := by
  simp only [sendMessage, hex, hbody, h, StatusInternalServerError]

/-- C10, the code at the failing input. With the dialog service unreachable,
the edge handlers `sendMessage` and `getDialog` answer HTTP status 500 with the
body message `Dialog service unavailable` and the body member `code` 503: the
status is not 503, and it is the status of the answer to a failed read of the
relayed body. It differs from the status 400 of the validation errors. -/
theorem edge_unavailable_status :
    sendMessage unreachableWorld ⟨str "alice", str "bob", some (str "hello")⟩
        = ⟨500, .messageCode "Dialog service unavailable" 503⟩
      ∧ getDialog unreachableWorld ⟨str "alice", str "bob", none⟩
        = ⟨500, .messageCode "Dialog service unavailable" 503⟩
      ∧ (sendMessage unreachableWorld ⟨str "alice", str "bob", some (str "hello")⟩).status
        ≠ StatusServiceUnavailable
      ∧ (getDialog unreachableWorld ⟨str "alice", str "bob", none⟩).status
        ≠ StatusServiceUnavailable
      ∧ (sendMessage unreachableWorld ⟨str "alice", str "bob", some (str "hello")⟩).status
        = (sendMessage brokenRelayWorld ⟨str "alice", str "bob", some (str "hello")⟩).status
      ∧ (getDialog unreachableWorld ⟨str "alice", str "bob", none⟩).status
        = (getDialog brokenRelayWorld ⟨str "alice", str "bob", none⟩).status
      ∧ (sendMessage unreachableWorld ⟨str "alice", str "bob", some (str "hello")⟩).status
        ≠ StatusBadRequest := by
  decide

end Monolith

namespace DialogService

/-! ## Facts about the counts of the health check -/

theorem foldl_len (l : List (GoString × Slice)) :
    ∀ acc : Nat, l.foldl (fun total entry => total + entry.2.len) acc
      = acc + (l.map (fun e => e.2.toList.length)).sum := by
  induction l with
  | nil => intro acc; simp
  | cons e rest ih =>
    intro acc
    simp only [List.foldl_cons, List.map_cons, List.sum_cons]
    rw [ih]
    simp only [Slice.len]
    omega

theorem conversationCount_eq (storage : DialogStorage) :
    conversationCount storage = storage.dialogs.len := by
  unfold conversationCount GoMap.len
  rw [List.toFinset_card_of_nodup storage.dialogs.nodup, List.length_map]

theorem healthCheck_eq (c : Context) (now : Time) (storage : DialogStorage) :
    healthCheck c now storage
      = (⟨200, .health "ok" "dialog-service" (conversationCount storage)
          (totalMessageCount storage)⟩, storage) := by
  unfold healthCheck
  rw [foldl_len, conversationCount_eq]
  simp [StatusOK, totalMessageCount]

theorem length_setEntries (k : GoString) (v : Slice) :
    ∀ l : List (GoString × Slice),
      (setEntries k v l).length = l.length + (if lookupEntries k l = none then 1 else 0)
  | [] => by simp [setEntries, lookupEntries]
  | (k2, v2) :: rest => by
    by_cases hk : k2 = k
    · simp [setEntries, lookupEntries, hk]
    · simp only [setEntries, lookupEntries, hk, if_false, List.length_cons,
        length_setEntries k v rest]
      omega

theorem sum_setEntries (k : GoString) (v : Slice) :
    ∀ l : List (GoString × Slice),
      ((setEntries k v l).map (fun e => e.2.toList.length)).sum
          + (match lookupEntries k l with
              | some v0 => v0.toList.length
              | none => 0)
        = (l.map (fun e => e.2.toList.length)).sum + v.toList.length
  | [] => by simp [setEntries, lookupEntries]
  | (k2, v2) :: rest => by
    by_cases hk : k2 = k
    · simp only [setEntries, lookupEntries, hk, if_true, List.map_cons, List.sum_cons]
      omega
    · have ih := sum_setEntries k v rest
      simp only [setEntries, lookupEntries, hk, if_false, List.map_cons, List.sum_cons]
      omega

theorem index_length (m : GoMap) (k : GoString) :
    (m.index k).toList.length
      = (match lookupEntries k m.entries with
          | some v0 => v0.toList.length
          | none => 0) := by
  unfold GoMap.index GoMap.get?
  cases lookupEntries k m.entries with
  | none => rfl
  | some v => rfl

theorem totalMessageCount_send (storage : DialogStorage) (key : GoString) (m : DialogMessage) :
    totalMessageCount ⟨storage.dialogs.set key ((storage.dialogs.index key).append m)⟩
      = totalMessageCount storage + 1 := by
  have h := sum_setEntries key ((storage.dialogs.index key).append m) storage.dialogs.entries
  have hi := index_length storage.dialogs key
  have ha : ((storage.dialogs.index key).append m).toList.length
      = (storage.dialogs.index key).toList.length + 1 := by
    simp [Slice.append, Slice.toList]
  unfold totalMessageCount
  simp only [GoMap.set]
  omega

theorem conversationCount_send (storage : DialogStorage) (key : GoString) (v : Slice) :
    conversationCount ⟨storage.dialogs.set key v⟩
      = conversationCount storage + (if storage.dialogs.get? key = none then 1 else 0) := by
  rw [conversationCount_eq, conversationCount_eq]
  exact length_setEntries key v storage.dialogs.entries

/-! ## Claim C11: the statistics of the health check -/

/-- C11. Health statistics: in every storage `healthCheck` answers 200 with
`total_dialogs` the number of conversation keys and `total_messages` the sum of
the lengths of all conversations, and the health route gives this answer
whatever the `X-User-ID` header is, the absent one included. So after an
accepted send the health check reports `total_messages` raised by exactly 1,
and `total_dialogs` raised by 1 when the key of the send had no binding and by
0 when it had one. -/
theorem health_statistics (storage : DialogStorage) :
    (∀ (c : Context) (now : Time), healthCheck c now storage
        = (⟨200, .health "ok" "dialog-service" (conversationCount storage)
            (totalMessageCount storage)⟩, storage))
      ∧ (∀ (header param : GoString) (body : ReqBody) (now : Time),
          serve ⟨.health, header, param, body, now⟩ storage
            = (⟨200, .health "ok" "dialog-service" (conversationCount storage)
                (totalMessageCount storage)⟩, storage))
      ∧ (∀ r : Request, r.route = .send → (serve r storage).1.status = 200 →
          ∀ (c : Context) (now : Time),
            (healthCheck c now (serve r storage).2).1
              = ⟨200, .health "ok" "dialog-service"
                  (conversationCount storage
                    + (if storage.dialogs.get? (createDialogKey r.header r.param) = none
                        then 1 else 0))
                  (totalMessageCount storage + 1)⟩) := by
  refine ⟨fun c now => healthCheck_eq c now storage,
    fun header param body now =>
      healthCheck_eq (newContext ⟨.health, header, param, body, now⟩) now storage,
    fun r hroute hok c now => ?_⟩
  rw [healthCheck_eq, serve_send_accepted r storage hroute hok, totalMessageCount_send,
    conversationCount_send]

end DialogService

namespace DialogService

/-! ## Facts about bindings and timestamps -/

theorem lookupEntries_of_mem (k : GoString) (v : Slice) :
    ∀ l : List (GoString × Slice), (l.map Prod.fst).Nodup → (k, v) ∈ l →
      lookupEntries k l = some v
  | [], _, h => by simp at h
  | (k2, v2) :: rest, hnd, h => by
    simp only [List.map_cons, List.nodup_cons] at hnd
    rcases List.mem_cons.mp h with h | h
    · injection h with h1 h2
      simp [lookupEntries, h1, h2]
    · have hk : k2 ≠ k := by
        intro hk
        subst hk
        exact hnd.1 (List.mem_map.mpr ⟨(k2, v), h, rfl⟩)
      simp only [lookupEntries, hk, if_false]
      exact lookupEntries_of_mem k v rest hnd.2 h

/-- The list under the key of a binding is the sequence of that binding. -/
theorem messages_of_entry (storage : DialogStorage) (e : GoString × Slice)
    (he : e ∈ storage.dialogs.entries) : storage.messages e.1 = e.2.toList := by
  have h := lookupEntries_of_mem e.1 e.2 storage.dialogs.entries storage.dialogs.nodup he
  simp [DialogStorage.messages, GoMap.index, GoMap.get?, h]

theorem messages_empty (key : GoString) : emptyStorage.messages key = [] := rfl

/-! ## Facts about the well-formed storage -/

theorem wellFormed_empty : WellFormed emptyStorage := by
  intro e he
  simp [emptyStorage, GoMap.empty] at he

theorem wellFormed_of_mem (storage : DialogStorage) (h : WellFormed storage) (key : GoString)
    (m : DialogMessage) (hm : m ∈ storage.messages key) :
    key = createDialogKey m.From m.To ∧ m.From ≠ m.To ∧ m.From ≠ [] ∧ m.Text ≠ [] := by
  obtain ⟨v, hv, hmv⟩ := messages_mem storage key m hm
  exact (h _ hv).2 m hmv

theorem wellFormed_serve (r : Request) (storage : DialogStorage) (h : WellFormed storage) :
    WellFormed (serve r storage).2 := by
  by_cases hroute : r.route = .send
  · by_cases hok : (serve r storage).1.status = 200
    · obtain ⟨hh, ⟨t, hbody, ht⟩, hne⟩ := (serve_send_status r storage hroute).1 hok
      rw [serve_send_accepted r storage hroute hok]
      intro e he
      rcases mem_setEntries _ _ e _ he with he | he
      · subst he
        simp only [Slice.append, Slice.toList]
        refine ⟨by simp, fun m hm => ?_⟩
        rcases List.mem_append.mp hm with hm | hm
        · exact wellFormed_of_mem storage h _ m hm
        · have hmr : m = sentMessage r := by simpa using hm
          subst hmr
          refine ⟨rfl, hne, hh, ?_⟩
          simp only [sentMessage, hbody, ReqBody.text, Option.getD_some]
          exact ht
      · exact h e he
    · rw [serve_send_refused r storage hroute hok]; exact h
  · rw [serve_not_send r storage hroute]; exact h

theorem wellFormed_run : ∀ (reqs : List Request) (storage : DialogStorage),
    WellFormed storage → WellFormed (run reqs storage)
  | [], _, h => h
  | r :: rest, storage, h => wellFormed_run rest _ (wellFormed_serve r storage h)

/-! ## Claim C13: the storage stays well formed -/

/-- C13. Store well-formedness: in every storage reachable from the empty one
through the four routes, no key is bound to an empty sequence and every message
stored under a key has that key as the key of its sender and recipient, a
sender that differs from its recipient, a non-empty sender and a non-empty
text; and `getDialog`, `getUserDialogs` and `healthCheck` return the storage
they were given, as does every route other than send. -/
theorem store_well_formed :
    (∀ storage : DialogStorage, Reachable storage → WellFormed storage)
      ∧ (∀ (c : Context) (now : Time) (storage : DialogStorage),
          (getDialog c now storage).2 = storage
            ∧ (getUserDialogs c now storage).2 = storage
            ∧ (healthCheck c now storage).2 = storage)
      ∧ (∀ (r : Request) (storage : DialogStorage), r.route ≠ .send →
          (serve r storage).2 = storage) := by
  refine ⟨?_, fun c now storage => ⟨rfl, rfl, rfl⟩, fun r storage h => serve_not_send r storage h⟩
  rintro storage ⟨reqs, rfl⟩
  exact wellFormed_run reqs emptyStorage wellFormed_empty

end DialogService

namespace DialogService

/-! ## Facts about requests that overlap -/

/-- The two parts of `sendMessage`, run one after the other, are `sendMessage`. -/
theorem sendMessage_split (c : Context) (now : Time) (storage : DialogStorage) :
    sendMessage c now storage =
      match sendMessagePrepare c now with
      | .error resp => (resp, storage)
      | .ok p => sendMessageCommit p storage := by
  unfold sendMessage sendMessagePrepare sendMessageCommit
  cases shouldBindJSON c.body with
  | none => rfl
  | some req =>
    by_cases h : c.userId = c.param
    · simp [h]
    · simp [h]

theorem sendMessagePrepare_stamp (c : Context) (now : Time) (p : GoString × DialogMessage)
    (h : sendMessagePrepare c now = .ok p) : p.2.Timestamp = now := by
  unfold sendMessagePrepare at h
  cases hb : shouldBindJSON c.body with
  | none => simp [hb] at h
  | some req =>
    by_cases hne : c.userId = c.param
    · simp [hb, hne] at h
    · simp only [hb, hne, if_false, Except.ok.injEq] at h
      rw [← h]

/-- A send in flight is a send whose service is the commit of its message,
and its stamp is the reading of the clock at its arrival. -/
theorem inFlightOf_some (r : Request) (p : GoString × DialogMessage)
    (h : inFlightOf r = some p) (storage : DialogStorage) :
    serve r storage = sendMessageCommit p storage ∧ p.2.Timestamp = r.now := by
  obtain ⟨route, header, param, body, now⟩ := r
  cases route with
  | health => simp [inFlightOf] at h
  | list => simp [inFlightOf] at h
  | dialogs => simp [inFlightOf] at h
  | send =>
    by_cases hh : header = []
    · simp [inFlightOf, newContext, hh] at h
    · simp only [inFlightOf, newContext, hh, if_false] at h
      cases hp : sendMessagePrepare ⟨header, param, body, header⟩ now with
      | error resp => simp [hp] at h
      | ok q =>
        simp only [hp, Option.some.injEq] at h
        subst h
        refine ⟨?_, sendMessagePrepare_stamp _ _ _ hp⟩
        simp only [serve, setupRoutes, newContext, userContextMiddleware, hh, if_false]
        rw [sendMessage_split, hp]

/-- A request that leaves nothing in flight leaves the storage as it was. -/
theorem inFlightOf_none (r : Request) (h : inFlightOf r = none) (storage : DialogStorage) :
    (serve r storage).2 = storage := by
  by_cases hroute : r.route = .send
  · by_cases hhd : r.header = []
    · rw [serve_send_no_header r storage hroute hhd]
    · rw [serve_send r storage hroute hhd, sendMessage_split]
      obtain ⟨route, header, param, body, now⟩ := r
      simp only at hroute hhd
      subst hroute
      simp only [inFlightOf, newContext, hhd, if_false] at h
      cases hp : sendMessagePrepare ⟨header, param, body, header⟩ now with
      | error resp => rfl
      | ok q => simp [hp] at h
  · exact serve_not_send r storage hroute

theorem step_arrive_some (s : System) (r : Request) (p : GoString × DialogMessage)
    (h : inFlightOf r = some p) :
    step s (.arrive r) = ⟨s.storage, s.inFlight ++ [p]⟩ := by
  simp [step, h]

theorem step_arrive_none (s : System) (r : Request) (h : inFlightOf r = none) :
    step s (.arrive r) = s := by
  simp [step, h, inFlightOf_none r h s.storage]

theorem step_commit_some (s : System) (i : Nat) (p : GoString × DialogMessage)
    (h : s.inFlight[i]? = some p) :
    step s (.commit i) = ⟨(sendMessageCommit p s.storage).2, s.inFlight.eraseIdx i⟩ := by
  simp [step, h]

theorem step_commit_none (s : System) (i : Nat) (h : s.inFlight[i]? = none) :
    step s (.commit i) = s := by
  simp [step, h]

/-- Requests that arrive and take the lock one at a time are the requests
served in order by `run`. -/
theorem runEvents_oneAtATime : ∀ (reqs : List Request) (storage : DialogStorage),
    runEvents (oneAtATime reqs) ⟨storage, []⟩ = ⟨run reqs storage, []⟩
  | [], _ => rfl
  | r :: rest, storage => by
    simp only [oneAtATime, runEvents, run]
    cases h : inFlightOf r with
    | none =>
      rw [step_arrive_none _ r h, step_commit_none _ 0 (by simp),
        inFlightOf_none r h storage]
      exact runEvents_oneAtATime rest storage
    | some p =>
      rw [step_arrive_some _ r p h, step_commit_some _ 0 p (by simp),
        (inFlightOf_some r p h storage).1]
      simpa using runEvents_oneAtATime rest (sendMessageCommit p storage).2

theorem keys_ne_of_eraseIdx :
    ∀ (l : List (GoString × DialogMessage)) (i : Nat) (p q : GoString × DialogMessage),
      (l.map Prod.fst).Nodup → l[i]? = some p → q ∈ l.eraseIdx i → q.1 ≠ p.1
  | [], _, _, _, _, h, _ => by simp at h
  | x :: xs, 0, p, q, hnd, h, hq => by
    simp only [List.getElem?_cons_zero, Option.some.injEq] at h
    simp only [List.eraseIdx_cons_zero] at hq
    simp only [List.map_cons, List.nodup_cons] at hnd
    subst h
    intro heq
    exact hnd.1 (heq ▸ List.mem_map_of_mem Prod.fst hq)
  | x :: xs, i + 1, p, q, hnd, h, hq => by
    simp only [List.getElem?_cons_succ] at h
    simp only [List.eraseIdx_cons_succ, List.mem_cons] at hq
    simp only [List.map_cons, List.nodup_cons] at hnd
    rcases hq with hq | hq
    · subst hq
      intro heq
      exact hnd.1 (heq ▸ List.mem_map_of_mem Prod.fst (List.getElem?_mem h))
    · exact keys_ne_of_eraseIdx xs i p q hnd.2 h hq

theorem ordered_initial : Ordered initialSystem 0 where
  stored := fun key => by simp [initialSystem, messages_empty, TimestampOrdered]
  storedBound := fun key m hm => by simp [initialSystem, messages_empty] at hm
  flightBound := fun p hp => by simp [initialSystem] at hp
  behind := fun p hp => by simp [initialSystem] at hp
  oneEach := by simp [initialSystem]

theorem ordered_arrive (s : System) (bound : Time) (r : Request) (p : GoString × DialogMessage)
    (h : Ordered s bound) (hp : inFlightOf r = some p) (hb : bound ≤ r.now)
    (hfree : p.1 ∉ s.inFlight.map Prod.fst) :
    Ordered ⟨s.storage, s.inFlight ++ [p]⟩ r.now where
  stored := h.stored
  storedBound := fun key m hm => le_trans (h.storedBound key m hm) hb
  flightBound := fun q hq => by
    rcases List.mem_append.mp hq with hq | hq
    · exact le_trans (h.flightBound q hq) hb
    · have hqp : q = p := by simpa using hq
      rw [hqp, (inFlightOf_some r p hp s.storage).2]
  behind := fun q hq m hm => by
    rcases List.mem_append.mp hq with hq | hq
    · exact h.behind q hq m hm
    · have hqp : q = p := by simpa using hq
      subst hqp
      rw [(inFlightOf_some r q hp s.storage).2]
      exact le_trans (h.storedBound q.1 m hm) hb
  oneEach := by
    rw [List.map_append, List.nodup_append]
    refine ⟨h.oneEach, by simp, ?_⟩
    intro k hk hk2
    have hkp : k = p.1 := by simpa using hk2
    exact hfree (hkp ▸ hk)

theorem ordered_commit (s : System) (bound : Time) (i : Nat) (p : GoString × DialogMessage)
    (h : Ordered s bound) (hp : s.inFlight[i]? = some p) :
    Ordered ⟨(sendMessageCommit p s.storage).2, s.inFlight.eraseIdx i⟩ bound where
  stored := fun key => by
    by_cases hk : key = p.1
    · subst hk
      simp only [sendMessageCommit, messages_after_send]
      unfold TimestampOrdered
      rw [List.pairwise_append]
      refine ⟨h.stored p.1, by simp, fun m hm m2 hm2 => ?_⟩
      have hm2p : m2 = p.2 := by simpa using hm2
      rw [hm2p]
      exact h.behind p (List.getElem?_mem hp) m hm
    · simp only [sendMessageCommit, messages_after_send_ne _ _ _ _ hk]
      exact h.stored key
  storedBound := fun key m hm => by
    by_cases hk : key = p.1
    · subst hk
      simp only [sendMessageCommit, messages_after_send] at hm
      rcases List.mem_append.mp hm with hm | hm
      · exact h.storedBound p.1 m hm
      · have hmp : m = p.2 := by simpa using hm
        rw [hmp]
        exact h.flightBound p (List.getElem?_mem hp)
    · simp only [sendMessageCommit, messages_after_send_ne _ _ _ _ hk] at hm
      exact h.storedBound key m hm
  flightBound := fun q hq => h.flightBound q (List.mem_of_mem_eraseIdx hq)
  behind := fun q hq m hm => by
    have hne : q.1 ≠ p.1 := keys_ne_of_eraseIdx s.inFlight i p q h.oneEach hp hq
    simp only [sendMessageCommit, messages_after_send_ne _ _ _ _ hne] at hm
    exact h.behind q (List.mem_of_mem_eraseIdx hq) m hm
  oneEach := List.Nodup.sublist ((List.eraseIdx_sublist s.inFlight i).map Prod.fst) h.oneEach

/-- The order of every list is kept along events in which the clock never goes
backwards and sends to one conversation do not overlap. -/
theorem ordered_run : ∀ (sched : List Event) (s : System) (bound : Time),
    Ordered s bound → (∀ t ∈ readings sched, bound ≤ t) → ClockNeverBackwards sched →
      Serialized sched s → ∃ bound2, Ordered (runEvents sched s) bound2
  | [], s, bound, h, _, _, _ => ⟨bound, h⟩
  | .arrive r :: rest, s, bound, h, hb, hclock, hser => by
    simp only [readings, List.mem_cons, forall_eq_or_imp] at hb
    simp only [ClockNeverBackwards, readings, List.pairwise_cons] at hclock
    simp only [Serialized] at hser
    simp only [runEvents]
    cases hp : inFlightOf r with
    | none =>
      rw [step_arrive_none s r hp] at hser ⊢
      exact ordered_run rest s bound h hb.2 hclock.2 hser.2
    | some p =>
      rw [step_arrive_some s r p hp] at hser ⊢
      exact ordered_run rest _ r.now (ordered_arrive s bound r p h hp hb.1 (hser.1 p hp))
        hclock.1 hclock.2 hser.2
  | .commit i :: rest, s, bound, h, hb, hclock, hser => by
    simp only [readings] at hb
    simp only [ClockNeverBackwards, readings] at hclock
    simp only [Serialized] at hser
    simp only [runEvents]
    cases hp : s.inFlight[i]? with
    | none =>
      rw [step_commit_none s i hp] at hser ⊢
      exact ordered_run rest s bound h hb hclock hser
    | some p =>
      rw [step_commit_some s i p hp] at hser ⊢
      exact ordered_run rest _ bound (ordered_commit s bound i p h hp) hb hclock hser

end DialogService

namespace DialogService

/-! ## Requests served one at a time -/

theorem step_oneAtATime (r : Request) (storage : DialogStorage) :
    step (step ⟨storage, []⟩ (.arrive r)) (.commit 0) = ⟨(serve r storage).2, []⟩ := by
  cases h : inFlightOf r with
  | none =>
    rw [step_arrive_none _ r h, step_commit_none _ 0 (by simp), inFlightOf_none r h storage]
  | some p =>
    rw [step_arrive_some _ r p h, step_commit_some _ 0 p (by simp),
      (inFlightOf_some r p h storage).1]
    simp

theorem serialized_oneAtATime : ∀ (reqs : List Request) (storage : DialogStorage),
    Serialized (oneAtATime reqs) ⟨storage, []⟩
  | [], _ => trivial
  | r :: rest, storage => by
    simp only [oneAtATime, Serialized]
    refine ⟨fun p _ => by simp, ?_⟩
    rw [step_oneAtATime]
    exact serialized_oneAtATime rest _

theorem readings_oneAtATime : ∀ reqs : List Request,
    readings (oneAtATime reqs) = reqs.map (fun r => r.now)
  | [] => rfl
  | r :: rest => by simp [oneAtATime, readings, readings_oneAtATime rest]

/-- Requests served one at a time, with a clock that never goes backwards,
leave every list in non-decreasing order of `Timestamp`. -/
theorem run_ordered_one_at_a_time (reqs : List Request)
    (hclock : (reqs.map (fun r => r.now)).Pairwise (fun t1 t2 => t1 ≤ t2)) (key : GoString) :
    TimestampOrdered ((run reqs emptyStorage).messages key) := by
  have hc : ClockNeverBackwards (oneAtATime reqs) := by
    unfold ClockNeverBackwards
    rw [readings_oneAtATime]
    exact hclock
  obtain ⟨bound, h⟩ := ordered_run (oneAtATime reqs) initialSystem 0 ordered_initial
    (fun t _ => Nat.zero_le t) hc (serialized_oneAtATime reqs emptyStorage)
  have hrun : runEvents (oneAtATime reqs) initialSystem = ⟨run reqs emptyStorage, []⟩ :=
    runEvents_oneAtATime reqs emptyStorage
  rw [hrun] at h
  exact h.stored key

/-! ## Claim C12: timestamps and the order of insertion -/

/-- C12, counterexample. The clock reads 1 when the send of `alice` arrives
and 2 when the send of `bob` arrives, so it never goes backwards; `bob` takes
the lock first. The conversation reached from the empty storage holds the
message stamped 2 before the message stamped 1: it is not in non-decreasing
order of `Timestamp`. -/
theorem timestamps_unordered_when_sends_overlap :
    ClockNeverBackwards
        [.arrive ⟨.send, str "alice", str "bob", .object (some (str "hi")), 1⟩,
          .arrive ⟨.send, str "bob", str "alice", .object (some (str "yo")), 2⟩,
          .commit 1, .commit 0]
      ∧ (runEvents
          [.arrive ⟨.send, str "alice", str "bob", .object (some (str "hi")), 1⟩,
            .arrive ⟨.send, str "bob", str "alice", .object (some (str "yo")), 2⟩,
            .commit 1, .commit 0]
          initialSystem).storage.messages (createDialogKey (str "alice") (str "bob"))
        = [⟨str "bob", str "alice", str "yo", 2⟩, ⟨str "alice", str "bob", str "hi", 1⟩]
      ∧ ¬ TimestampOrdered
          ((runEvents
            [.arrive ⟨.send, str "alice", str "bob", .object (some (str "hi")), 1⟩,
              .arrive ⟨.send, str "bob", str "alice", .object (some (str "yo")), 2⟩,
              .commit 1, .commit 0]
            initialSystem).storage.messages (createDialogKey (str "alice") (str "bob"))) := by
  decide

/-- C12, amended. Timestamp order without overlap: when the clock never goes
backwards and sends to one conversation do not overlap (no send for a key
reads the clock while another send for that key has read it and has not
appended yet), then in the storage reached from the empty one every
conversation has its messages in non-decreasing order of `Timestamp`, and so
has the list under every key. Sends to different conversations may overlap. -/
theorem timestamps_ordered_without_overlap (sched : List Event)
    (hclock : ClockNeverBackwards sched) (hser : Serialized sched initialSystem) :
    (∀ e ∈ (runEvents sched initialSystem).storage.dialogs.entries,
        TimestampOrdered e.2.toList)
      ∧ (∀ key, TimestampOrdered ((runEvents sched initialSystem).storage.messages key)) := by
  obtain ⟨bound, h⟩ := ordered_run sched initialSystem 0 ordered_initial
    (fun t _ => Nat.zero_le t) hclock hser
  refine ⟨fun e he => ?_, h.stored⟩
  rw [← messages_of_entry _ e he]
  exact h.stored e.1

/-- C12, the amended claim at a concrete input: the sends of `alice` to `bob`
and of `carol` to `dave` overlap and take the lock in the other order, then
`bob` answers `alice`. -/
theorem timestamps_ordered_without_overlap_witness :
    (ClockNeverBackwards
        [.arrive ⟨.send, str "alice", str "bob", .object (some (str "hi")), 1⟩,
          .arrive ⟨.send, str "carol", str "dave", .object (some (str "yo")), 2⟩,
          .commit 1, .commit 0,
          .arrive ⟨.list, str "bob", str "alice", .malformed, 2⟩,
          .arrive ⟨.send, str "bob", str "alice", .object (some (str "ok")), 3⟩,
          .commit 0]
      ∧ Serialized
        [.arrive ⟨.send, str "alice", str "bob", .object (some (str "hi")), 1⟩,
          .arrive ⟨.send, str "carol", str "dave", .object (some (str "yo")), 2⟩,
          .commit 1, .commit 0,
          .arrive ⟨.list, str "bob", str "alice", .malformed, 2⟩,
          .arrive ⟨.send, str "bob", str "alice", .object (some (str "ok")), 3⟩,
          .commit 0]
        initialSystem)
      ∧ ((∀ e ∈ (runEvents
            [.arrive ⟨.send, str "alice", str "bob", .object (some (str "hi")), 1⟩,
              .arrive ⟨.send, str "carol", str "dave", .object (some (str "yo")), 2⟩,
              .commit 1, .commit 0,
              .arrive ⟨.list, str "bob", str "alice", .malformed, 2⟩,
              .arrive ⟨.send, str "bob", str "alice", .object (some (str "ok")), 3⟩,
              .commit 0]
            initialSystem).storage.dialogs.entries, TimestampOrdered e.2.toList)
        ∧ (∀ key, TimestampOrdered ((runEvents
            [.arrive ⟨.send, str "alice", str "bob", .object (some (str "hi")), 1⟩,
              .arrive ⟨.send, str "carol", str "dave", .object (some (str "yo")), 2⟩,
              .commit 1, .commit 0,
              .arrive ⟨.list, str "bob", str "alice", .malformed, 2⟩,
              .arrive ⟨.send, str "bob", str "alice", .object (some (str "ok")), 3⟩,
              .commit 0]
            initialSystem).storage.messages key)))
      ∧ (runEvents
          [.arrive ⟨.send, str "alice", str "bob", .object (some (str "hi")), 1⟩,
            .arrive ⟨.send, str "carol", str "dave", .object (some (str "yo")), 2⟩,
            .commit 1, .commit 0,
            .arrive ⟨.list, str "bob", str "alice", .malformed, 2⟩,
            .arrive ⟨.send, str "bob", str "alice", .object (some (str "ok")), 3⟩,
            .commit 0]
          initialSystem).storage.messages (createDialogKey (str "alice") (str "bob"))
        = [⟨str "alice", str "bob", str "hi", 1⟩, ⟨str "bob", str "alice", str "ok", 3⟩] :=
  ⟨⟨by decide, by decide⟩, timestamps_ordered_without_overlap _ (by decide) (by decide),
    by decide⟩

end DialogService
